import Mathlib

/-!
# 3FWar simulation engine: a shallow embedding

This file embeds the core simulation engine of the 3FWar repository
(`hex_grid.py`, `faction.py`, `simulation.py`) as executable Lean
definitions and proves properties of the embedded code.

Modelling conventions:
* Python ints are `Int`/`Nat`; Python floats that only ever hold exact
  decimal values (resources, credits, the 0.5-hour mercenary timer, the
  reward multipliers) are modelled as `Rat`, on which the arithmetic of
  the source is exact.
* Python's insertion-ordered `dict` of cells is modelled as a `List HexCell`
  keyed by the `hex` field (every insertion in the source uses
  `cells[h] = HexCell(h, ...)`, so the key always equals the cell's own
  coordinate).  Updating a value keeps its position, inserting appends,
  deleting filters, exactly as a Python dict behaves.
* Python `set` iteration order is unspecified; wherever the source iterates
  over a set (`_find_territory_bodies`, `_find_edge_cells`) the embedding
  fixes the deterministic discovery order.  Membership tests on sets of
  `HexCell` objects use object identity in Python; since the grid holds
  exactly one object per coordinate, identity coincides with equality of
  the `hex` field, which is what the embedding compares.
* The ambient randomness of `_process_faction_actions` (`random.shuffle`
  and the 30% execution gate) is made explicit as an oracle argument.
* Loops with data-dependent termination (the flood fills and the
  breadth-first searches) are written with an explicit fuel argument; each
  caller passes a fuel that dominates the loop's iteration count (every
  iteration either consumes a queue entry or marks a previously unvisited
  grid cell, so `cells.length + seeds.length + 1` always suffices).
-/

/-- The four owner colours of `hex_grid.py` (`'grey'`, `'orange'`,
`'green'`, `'blue'`); an unclaimed cell has owner `none`. -/
inductive Color where
  | grey
  | orange
  | green
  | blue
deriving DecidableEq, Repr, Inhabited

/-- `Hex`: axial hex coordinate, `hex_grid.py` lines 6-42. -/
structure Hex where
  q : Int
  r : Int
deriving DecidableEq, Repr, Inhabited

namespace Hex

/-- `Hex.neighbors`: the six adjacent coordinates in the fixed source order. -/
def neighbors (h : Hex) : List Hex :=
  [⟨h.q + 1, h.r⟩, ⟨h.q + 1, h.r - 1⟩, ⟨h.q, h.r - 1⟩,
   ⟨h.q - 1, h.r⟩, ⟨h.q - 1, h.r + 1⟩, ⟨h.q, h.r + 1⟩]

/-- `Hex.distance_from_center`: `(|q| + |q+r| + |r|) // 2`.  All three
summands are nonnegative, so Python floor division agrees with `Int`
division here; the result is a nonnegative integer kept as `Int`. -/
def distanceFromCenter (h : Hex) : Int :=
  (h.q.natAbs + (h.q + h.r).natAbs + h.r.natAbs : Int) / 2

end Hex

/-- `HexCell`, `hex_grid.py` lines 45-103.  Field names follow the source
(`owner`, `is_home`, `is_permanent`, `native_sector`, `resources`,
`protection_until`); simulation hours are natural numbers, so
`protection_until` (always set to `current_hour + duration`) is a `Nat`. -/
structure HexCell where
  hex : Hex
  owner : Option Color
  isHome : Bool
  isPermanent : Bool
  nativeSector : Option Color
  resources : Rat
  protectionUntil : Nat
deriving DecidableEq, Repr, Inhabited

namespace HexCell

/-- The `HexCell.__init__` defaults: `resources = 0.0`, `protection_until = 0`. -/
def mk0 (h : Hex) (owner : Option Color) (isHome isPermanent : Bool)
    (nativeSector : Option Color) : HexCell :=
  { hex := h, owner := owner, isHome := isHome, isPermanent := isPermanent,
    nativeSector := nativeSector, resources := 0, protectionUntil := 0 }

/-- `HexCell.is_protected(current_hour)`: `current_hour < protection_until`. -/
def isProtected (c : HexCell) (currentHour : Nat) : Bool :=
  currentHour < c.protectionUntil

/-- `HexCell.set_protection(current_hour, duration)`. -/
def setProtection (c : HexCell) (currentHour duration : Nat) : HexCell :=
  { c with protectionUntil := currentHour + duration }

/-- `HexCell._get_ring_multiplier(ring)`. -/
def ringMultiplier (ring : Int) : Rat :=
  if ring = 0 then 1
  else if ring = 1 then 11 / 10
  else if ring = 2 then 12 / 10
  else if ring = 3 then 13 / 10
  else 14 / 10

/-- `HexCell.produce_resources(base_value = 100.0)`. -/
def produceResources (c : HexCell) : HexCell :=
  { c with resources :=
      c.resources + 100 * ringMultiplier c.hex.distanceFromCenter }

/-- `HexCell.deposit_resources`: returns the accumulated amount and the
cell with `resources` zeroed. -/
def depositResources (c : HexCell) : Rat × HexCell :=
  (c.resources, { c with resources := 0 })

/-- `HexCell.reset`: back to unclaimed, a no-op on home or permanent cells. -/
def reset (c : HexCell) : HexCell :=
  if c.isHome = false ∧ c.isPermanent = false then
    { c with owner := none, resources := 0, protectionUntil := 0 }
  else c

end HexCell

/-- `HexGrid`, `hex_grid.py` lines 106-416.  `cells` models the
insertion-ordered dict `Hex -> HexCell` (see the header comment);
`initialHexes` is the set of coordinates present at initialization.
The `spiral_order` list and `sector_axes` dict are display/legacy data
never read by the engine and are not modelled. -/
structure HexGrid where
  cells : List HexCell
  initialHexes : List Hex
deriving DecidableEq, Repr, Inhabited

namespace HexGrid

/-- `HexGrid.get_cell`. -/
def getCell (g : HexGrid) (h : Hex) : Option HexCell :=
  g.cells.find? (fun c => c.hex = h)

/-- Dict-style update: replace the value stored at key `h` (in place,
keeping its position), a no-op when the key is absent.  This is how every
in-place mutation of a cell object reached through `get_cell` acts on the
dict. -/
def updateCell (g : HexGrid) (h : Hex) (f : HexCell → HexCell) : HexGrid :=
  { g with cells := g.cells.map (fun c => if c.hex = h then f c else c) }

/-- `HexGrid.get_neighbors`: existing neighbouring cells, in the fixed
neighbour order (missing coordinates are skipped). -/
def getNeighbors (g : HexGrid) (h : Hex) : List HexCell :=
  h.neighbors.filterMap (fun n => g.getCell n)

/-- `HexGrid._determine_native_sector`, `hex_grid.py` lines 220-258. -/
def determineNativeSector (h : Hex) : Color :=
  let s := -h.q - h.r
  if h.q.natAbs ≤ h.r.natAbs ∧ h.q.natAbs ≤ s.natAbs then Color.orange
  else if s.natAbs ≤ h.q.natAbs ∧ s.natAbs ≤ h.r.natAbs then Color.green
  else Color.blue

/-- `HexGrid.expand_grid`: insert a fresh unclaimed cell if absent
(insertion appends to the dict). -/
def expandGrid (g : HexGrid) (h : Hex) : HexGrid :=
  if (g.getCell h).isSome then g
  else { g with cells :=
    g.cells ++ [HexCell.mk0 h none false false (some (determineNativeSector h))] }

/-- `HexGrid.can_remove_hex`. -/
def canRemoveHex (g : HexGrid) (h : Hex) : Bool :=
  if h ∈ g.initialHexes then false
  else match g.getCell h with
    | none => false
    | some c =>
      if c.owner ≠ none then false
      else ¬ (g.getNeighbors h).any (fun n => n.owner ≠ none)

/-- `HexGrid.remove_hex`. -/
def removeHex (g : HexGrid) (h : Hex) : HexGrid :=
  if g.canRemoveHex h then
    { g with cells := g.cells.filter (fun c => c.hex ≠ h) }
  else g

/-- `HexGrid.get_faction_cells`: all cells owned by `faction`, in dict
order. -/
def getFactionCells (g : HexGrid) (faction : Color) : List HexCell :=
  g.cells.filter (fun c => c.owner = some faction)

/-- `HexGrid.get_home_cells`. -/
def getHomeCells (g : HexGrid) (faction : Color) : List HexCell :=
  g.cells.filter (fun c => c.owner = some faction ∧ c.isHome = true)

/-- One step of the `find_connected_cells` loop: pop the last frontier
element (Python `list.pop()`), add every same-owner neighbour not yet in
`connected`.  The result is used only through membership in `connected`,
so the unspecified iteration order of the Python sets is immaterial. -/
def findConnectedGo (g : HexGrid) (owner : Option Color) :
    Nat → List Hex → List Hex → List Hex
  | 0, connected, _ => connected
  | _ + 1, connected, [] => connected
  | fuel + 1, connected, frontier =>
      let currentHex := frontier.getLast!
      let rest := frontier.dropLast
      let step := (g.getNeighbors currentHex).foldl
        (fun (acc : List Hex × List Hex) n =>
          if n.owner = owner ∧ n.hex ∉ acc.1 then
            (acc.1 ++ [n.hex], acc.2 ++ [n.hex])
          else acc)
        (connected, rest)
      findConnectedGo g owner fuel step.1 step.2

/-- `HexGrid.find_connected_cells(start_cells)`: the same-owner flood fill
from `start_cells`, returned as the list of member coordinates.  Each loop
iteration pops one frontier entry and every push is a grid cell newly added
to `connected`, so `cells.length + start.length + 1` iterations always
complete the search. -/
def findConnectedCells (g : HexGrid) (startCells : List HexCell) : List Hex :=
  match startCells with
  | [] => []
  | c0 :: _ =>
      let connected := (startCells.map (fun c => c.hex)).dedup
      findConnectedGo g c0.owner (g.cells.length + connected.length + 1)
        connected connected

end HexGrid

namespace HexGrid

/-- The 22 grey founding coordinates of `_initialize_grid`. -/
def greyCoords : List (Int × Int) :=
  [(0, 0), (0, -1), (1, -1), (1, 0), (0, 1), (-1, 1), (-1, 0), (-2, 0),
   (2, -2), (0, 2), (0, 3), (-3, 0), (3, -3), (3, -4), (4, -4), (4, -3),
   (1, 3), (0, 4), (-1, 4), (-4, 1), (-4, 0), (-3, -1)]

/-- The 13 orange founding coordinates. -/
def orangeCoords : List (Int × Int) :=
  [(0, -2), (0, -3), (0, -4), (1, -2), (1, -3), (1, -4), (2, -3), (2, -4),
   (-1, -1), (-1, -2), (-1, -3), (-2, -1), (-2, -2)]

/-- The 13 blue founding coordinates. -/
def blueCoords : List (Int × Int) :=
  [(2, 0), (3, 0), (4, 0), (1, 1), (2, 1), (3, 1), (1, 2), (2, 2),
   (2, -1), (3, -1), (4, -1), (3, -2), (4, -2)]

/-- The 13 green founding coordinates. -/
def greenCoords : List (Int × Int) :=
  [(-2, 2), (-3, 3), (-4, 4), (-2, 1), (-3, 2), (-4, 3), (-3, 1), (-4, 2),
   (-1, 2), (-2, 3), (-3, 4), (-1, 3), (-2, 4)]

/-- The 30 unclaimed yellow border coordinates. -/
def yellowCoords : List (Int × Int) :=
  [(-5, 0), (-5, 1), (-5, 2), (-5, 3), (-5, 4), (-5, 5), (-4, -1), (-4, 5),
   (-3, -2), (-3, 5), (-2, -3), (-2, 5), (-1, -4), (-1, 5), (0, -5), (0, 5),
   (1, -5), (1, 4), (2, -5), (2, 3), (3, -5), (3, 2), (4, -5), (4, 1),
   (5, -5), (5, -4), (5, -3), (5, -2), (5, -1), (5, 0)]

/-- Insert one founding cell (owner `owner`, `is_home = is_permanent = True`)
and record its coordinate in `initial_hexes`. -/
def addFoundingCell (owner : Color) (g : HexGrid) (qr : Int × Int) : HexGrid :=
  let h : Hex := ⟨qr.1, qr.2⟩
  { cells := g.cells ++
      [HexCell.mk0 h (some owner) true true (some (determineNativeSector h))],
    initialHexes := g.initialHexes ++ [h] }

/-- Insert one yellow border cell, guarded by `if hex_pos not in self.cells`
as in the source. -/
def addYellowCell (g : HexGrid) (qr : Int × Int) : HexGrid :=
  let h : Hex := ⟨qr.1, qr.2⟩
  if (g.getCell h).isSome then g
  else
    { cells := g.cells ++
        [HexCell.mk0 h none false false (some (determineNativeSector h))],
      initialHexes := g.initialHexes ++ [h] }

/-- `HexGrid.__init__` / `_initialize_grid`: the fresh grid. -/
def init : HexGrid :=
  let g : HexGrid := { cells := [], initialHexes := [] }
  let g := greyCoords.foldl (addFoundingCell Color.grey) g
  let g := orangeCoords.foldl (addFoundingCell Color.orange) g
  let g := blueCoords.foldl (addFoundingCell Color.blue) g
  let g := greenCoords.foldl (addFoundingCell Color.green) g
  yellowCoords.foldl addYellowCell g

end HexGrid

/-- `Mercenary`, `faction.py` lines 42-66.  `mission_complete_hour` is an
int plus 0.5, hence a `Rat`. -/
structure Mercenary where
  id : Nat
  assigned : Bool
  missionCompleteHour : Option Rat
deriving DecidableEq, Repr, Inhabited

namespace Mercenary

/-- `Mercenary.__init__`. -/
def mk0 (mercId : Nat) : Mercenary :=
  { id := mercId, assigned := false, missionCompleteHour := none }

/-- `Mercenary.assign_mission(current_hour, duration = 0.5)`. -/
def assignMission (m : Mercenary) (currentHour : Nat) : Mercenary :=
  { m with assigned := true,
           missionCompleteHour := some ((currentHour : Rat) + 1 / 2) }

/-- `Mercenary.is_available(current_hour)`. -/
def isAvailable (m : Mercenary) (currentHour : Nat) : Bool :=
  if m.assigned = false then true
  else match m.missionCompleteHour with
    | some t => (currentHour : Rat) ≥ t
    | none => false

/-- `Mercenary.release`. -/
def release (m : Mercenary) : Mercenary :=
  { m with assigned := false, missionCompleteHour := none }

end Mercenary

/-- `MercenaryPool`, `faction.py` lines 69-127: the list of mercenaries.
`min_size`/`max_size` are the constants 300/5000; `adjust_size` and the
`size` setter are never called by the hour-step pipeline and are not
modelled. -/
def MercenaryPool := List Mercenary
deriving DecidableEq, Repr, Inhabited

namespace MercenaryPool

/-- `MercenaryPool.__init__(initial_size)`. -/
def init (initialSize : Nat) : MercenaryPool :=
  (List.range initialSize).map Mercenary.mk0

/-- `MercenaryPool.get_available_count(current_hour)`. -/
def getAvailableCount (pool : MercenaryPool) (currentHour : Nat) : Nat :=
  (pool.filter (fun m => m.isAvailable currentHour)).length

/-- The effect of `allocate`'s assignment loop on the underlying list:
assign the first `count` mercenaries that are available at `currentHour`,
leaving everything else unchanged. -/
def allocateGo (currentHour : Nat) : Nat → List Mercenary → List Mercenary
  | 0, ms => ms
  | _ + 1, [] => []
  | count + 1, m :: ms =>
      if m.isAvailable currentHour then
        m.assignMission currentHour :: allocateGo currentHour count ms
      else
        m :: allocateGo currentHour (count + 1) ms

/-- `MercenaryPool.allocate(count, current_hour)`: all-or-nothing
allocation; returns the success flag and the updated pool. -/
def allocate (pool : MercenaryPool) (count currentHour : Nat) :
    Bool × MercenaryPool :=
  if count ≤ pool.getAvailableCount currentHour then
    (true, allocateGo currentHour count pool)
  else
    (false, pool)

/-- `MercenaryPool.process_hour(current_hour)`: release every mercenary
whose mission is complete. -/
def processHour (pool : MercenaryPool) (currentHour : Nat) : MercenaryPool :=
  pool.map (fun m =>
    match m.missionCompleteHour with
    | some t => if m.assigned ∧ (currentHour : Rat) ≥ t then m.release else m
    | none => m)

end MercenaryPool

/-- Insert `a` into the already-sorted `l`, after every element `b` with
`le b a`.  Helper for `stableSort`. -/
def insertSorted (le : α → α → Bool) (a : α) : List α → List α
  | [] => [a]
  | b :: bs => if le b a then b :: insertSorted le a bs else a :: b :: bs

/-- Stable insertion sort.  Python's `list.sort(key=...)` is a stable sort
and the output of a stable sort is uniquely determined by the key order,
so this computes exactly the list the source computes. -/
def stableSort (le : α → α → Bool) (l : List α) : List α :=
  l.foldl (fun acc a => insertSorted le a acc) []

/-- `Mission`, `faction.py` lines 7-14.  `mission_type` is one of the three
strings `'claim'`, `'disrupt'`, `'reclaim'`. -/
inductive MissionType where
  | claim
  | disrupt
  | reclaim
deriving DecidableEq, Repr, Inhabited

/-- A mission: kind, target hex, proposing faction, integer reward. -/
structure Mission where
  mtype : MissionType
  target : Hex
  faction : Color
  reward : Int
deriving DecidableEq, Repr, Inhabited

namespace FactionAI

open HexGrid

/-- The dict-iteration order `['orange', 'green', 'blue']` used for
territory counts and for `max`/`min` tie-breaking. -/
def factionColors : List Color := [Color.orange, Color.green, Color.blue]

/-- `FactionAI._get_territory_counts`. -/
def getTerritoryCounts (g : HexGrid) : Color → Nat :=
  fun c => (g.getFactionCells c).length

/-- `FactionAI._get_faction_with_most_territories`: Python
`max(counts, key=counts.get)` returns the first key (in dict order
orange, green, blue) attaining the maximum. -/
def factionWithMost (counts : Color → Nat) : Color × Nat :=
  (factionColors.tail).foldl
    (fun best c => if counts c > best.2 then (c, counts c) else best)
    (Color.orange, counts Color.orange)

/-- `FactionAI._get_faction_with_least_territories`: first key attaining
the minimum. -/
def factionWithLeast (counts : Color → Nat) : Color × Nat :=
  (factionColors.tail).foldl
    (fun best c => if counts c < best.2 then (c, counts c) else best)
    (Color.orange, counts Color.orange)

/-- Python `int(x)`: truncation toward zero. -/
def pyInt (x : Rat) : Int :=
  if 0 ≤ x then x.floor else -((-x).floor)

/-- The base rewards of `_calculate_mission_reward`. -/
def baseReward : MissionType → Int
  | MissionType.claim => 1000
  | MissionType.disrupt => 5000
  | MissionType.reclaim => 3000

/-- `FactionAI._calculate_mission_reward(mission_type, target)`,
`faction.py` lines 322-398, for the AI of faction `selfColor`. -/
def calculateMissionReward (g : HexGrid) (selfColor : Color)
    (missionType : MissionType) (target : Hex) : Int :=
  let counts := getTerritoryCounts g
  let most := factionWithMost counts
  let least := factionWithLeast counts
  let reward : Int := baseReward missionType
  let targetCell := g.getCell target
  let reward :=
    match missionType with
    | MissionType.claim =>
        if selfColor = least.1 then
          if least.2 > 0 then
            let multiplier : Rat :=
              1 + ((most.2 : Rat) / (max least.2 1 : Nat) - 1) * (1 / 2)
            pyInt (reward * min multiplier 3)
          else pyInt ((reward : Rat) * 3)
        else if selfColor = most.1 then
          if most.2 > 0 then
            let multiplier : Rat :=
              max (3 / 10) ((least.2 : Rat) / (max most.2 1 : Nat))
            pyInt (reward * multiplier)
          else reward
        else reward
    | MissionType.disrupt =>
        let targetOwner := match targetCell with
          | some c => c.owner
          | none => none
        if targetOwner = some least.1 then
          if most.2 > 0 then
            let multiplier : Rat :=
              max (3 / 10) ((least.2 : Rat) / (max most.2 1 : Nat))
            pyInt (reward * multiplier)
          else reward
        else if targetOwner = some most.1 then
          if least.2 > 0 then
            let multiplier : Rat :=
              1 + ((most.2 : Rat) / (max least.2 1 : Nat) - 1) * (1 / 2)
            pyInt (reward * min multiplier 3)
          else reward
        else reward
    | MissionType.reclaim =>
        if selfColor = least.1 then
          if least.2 > 0 then
            let multiplier : Rat :=
              1 + ((most.2 : Rat) / (max least.2 1 : Nat) - 1) * (1 / 2)
            pyInt (reward * min multiplier 3)
          else pyInt ((reward : Rat) * 3)
        else if selfColor = most.1 then
          if most.2 > 0 then
            let multiplier : Rat :=
              max (3 / 10) ((least.2 : Rat) / (max most.2 1 : Nat))
            pyInt (reward * multiplier)
          else reward
        else reward
  max 100 reward

/-- `FactionAI._is_hex_reachable(target_hex, connected)`: in, or adjacent
to, the connected territory. -/
def isHexReachable (g : HexGrid) (targetHex : Hex) (connected : List Hex) :
    Bool :=
  if targetHex ∈ connected then true
  else (g.getNeighbors targetHex).any (fun n => n.hex ∈ connected)

/-- `FactionAI._find_claim_targets`: unclaimed cells adjacent to the
connected territory, deduplicated in discovery order, sorted (stably)
by distance from center. -/
def findClaimTargets (g : HexGrid) (factionCells : List HexCell)
    (connected : List Hex) : List HexCell :=
  let step := factionCells.foldl
    (fun (acc : List HexCell × List Hex) cell =>
      if cell.hex ∈ connected then
        (g.getNeighbors cell.hex).foldl
          (fun (acc : List HexCell × List Hex) n =>
            if n.owner = none ∧ n.hex ∉ acc.2 then
              (acc.1 ++ [n], acc.2 ++ [n.hex])
            else acc)
          acc
      else acc)
    ([], [])
  stableSort
    (fun a b => a.hex.distanceFromCenter ≤ b.hex.distanceFromCenter) step.1

/-- `FactionAI._would_disconnect(cell, home_cells, faction_color)`: the
"connection point" heuristic (at least two same-owner non-home
neighbours). -/
def wouldDisconnect (g : HexGrid) (cell : HexCell) (factionColor : Color) :
    Bool :=
  let factionNeighbors := (g.getNeighbors cell.hex).filter
    (fun n => n.owner = some factionColor ∧ n.isHome = false)
  if factionNeighbors.length < 2 then false else true

/-- `FactionAI._find_disrupt_targets(current_hour)`: enemy connection
points that are reachable from this faction's connected territory. -/
def findDisruptTargets (g : HexGrid) (selfColor : Color) (currentHour : Nat) :
    List HexCell :=
  let otherFactions := factionColors.filter (fun c => c ≠ selfColor)
  let homeCells := g.getHomeCells selfColor
  let connected := g.findConnectedCells homeCells
  let targets := otherFactions.foldl
    (fun (targets : List HexCell) enemyColor =>
      let enemyCells := g.getFactionCells enemyColor
      let enemyHome := g.getHomeCells enemyColor
      if enemyHome.isEmpty then targets
      else enemyCells.foldl
        (fun targets cell =>
          if cell.isHome = true ∨ cell.isProtected currentHour = true then
            targets
          else if isHexReachable g cell.hex connected = false then targets
          else if wouldDisconnect g cell enemyColor = true then
            targets ++ [cell]
          else targets)
        targets)
    []
  targets.take 5

/-- The inner neighbour loop of `_find_shortest_reconnection_path`: walk
the neighbour list of the dequeued hex; an unvisited neighbour inside
`connected` returns the reversed path immediately (`Sum.inl`), an
unvisited claimable neighbour (owner different from the searching faction)
is enqueued; otherwise continue.  `Sum.inr` carries the updated visited
set and queue. -/
def reconnectNbrs (selfColor : Color) (connected : List Hex)
    (path : List Hex) :
    List HexCell → List Hex → List (Hex × List Hex) →
    Sum (List Hex) (List Hex × List (Hex × List Hex))
  | [], visited, queue => Sum.inr (visited, queue)
  | n :: ns, visited, queue =>
      if n.hex ∈ visited then reconnectNbrs selfColor connected path ns visited queue
      else
        let visited := visited ++ [n.hex]
        let newPath := path ++ [n.hex]
        if n.hex ∈ connected then Sum.inl newPath.reverse
        else if n.owner ≠ some selfColor then
          reconnectNbrs selfColor connected path ns visited
            (queue ++ [(n.hex, newPath)])
        else reconnectNbrs selfColor connected path ns visited queue

/-- The breadth-first search loop of `_find_shortest_reconnection_path`:
dequeue from the front (`deque.popleft`), process neighbours, recurse. -/
def reconnectGo (g : HexGrid) (selfColor : Color) (connected : List Hex) :
    Nat → List (Hex × List Hex) → List Hex → Option (List Hex)
  | 0, _, _ => none
  | _ + 1, [], _ => none
  | fuel + 1, (current, path) :: queue, visited =>
      match reconnectNbrs selfColor connected path (g.getNeighbors current)
          visited queue with
      | Sum.inl found => some found
      | Sum.inr (visited, queue) =>
          reconnectGo g selfColor connected fuel queue visited

/-- `FactionAI._find_shortest_reconnection_path(disconnected_cell,
home_cells, connected)`, `faction.py` lines 281-320 (the `home_cells`
argument is never read by the body).  Every dequeued entry was enqueued
exactly once and every enqueued hex is a distinct grid cell marked
visited, so `cells.length + 2` rounds always finish the search. -/
def findShortestReconnectionPath (g : HexGrid) (selfColor : Color)
    (disconnectedCell : HexCell) (connected : List Hex) :
    Option (List Hex) :=
  reconnectGo g selfColor connected (g.cells.length + 2)
    [(disconnectedCell.hex, [])] [disconnectedCell.hex]

/-- The reclaim-mission part of `evaluate_missions` (step 1 of the body):
for up to 3 disconnected cells, the first hex of the reconnection path
becomes the mission target.  A returned path is never empty (it always
ends with the hex that triggered the stop), so `headI` is Python's
`path[0]`. -/
def reclaimMissions (g : HexGrid) (selfColor : Color)
    (disconnected : List HexCell) (connected : List Hex) : List Mission :=
  (disconnected.take 3).foldl
    (fun ms cell =>
      match findShortestReconnectionPath g selfColor cell connected with
      | some path =>
          ms ++ [{ mtype := MissionType.reclaim, target := path.headI,
                   faction := selfColor,
                   reward := calculateMissionReward g selfColor
                     MissionType.reclaim path.headI }]
      | none => ms)
    []

/-- `FactionAI.evaluate_missions(current_hour)`, `faction.py`
lines 155-191. -/
def evaluateMissions (g : HexGrid) (selfColor : Color) (currentHour : Nat) :
    List Mission :=
  let factionCells := g.getFactionCells selfColor
  let homeCells := g.getHomeCells selfColor
  if factionCells.isEmpty then []
  else
    let connected := g.findConnectedCells homeCells
    let disconnected := factionCells.filter
      (fun c => c.hex ∉ connected ∧ c.isHome = false)
    let reclaims := reclaimMissions g selfColor disconnected connected
    let claims := ((findClaimTargets g factionCells connected).take 5).map
      (fun t => { mtype := MissionType.claim, target := t.hex,
                  faction := selfColor,
                  reward := calculateMissionReward g selfColor
                    MissionType.claim t.hex })
    let disrupts := ((findDisruptTargets g selfColor currentHour).take 2).map
      (fun t => { mtype := MissionType.disrupt, target := t.hex,
                  faction := selfColor,
                  reward := calculateMissionReward g selfColor
                    MissionType.disrupt t.hex })
    reclaims ++ claims ++ disrupts

/-- The neighbour-protection loop of `execute_mission`: re-protect every
same-faction neighbour of the target for 3 hours. -/
def protectNeighbors (g : HexGrid) (target : Hex) (selfColor : Color)
    (currentHour : Nat) : HexGrid :=
  ((g.getNeighbors target).filter (fun n => n.owner = some selfColor)).foldl
    (fun g n => g.updateCell n.hex (fun c => c.setProtection currentHour 3))
    g

/-- `FactionAI._expand_grid_if_needed(claimed_hex)`. -/
def expandGridIfNeeded (g : HexGrid) (claimedHex : Hex) : HexGrid :=
  claimedHex.neighbors.foldl
    (fun g nh => if (g.getCell nh).isSome then g else g.expandGrid nh) g

/-- `FactionAI.execute_mission(mission, current_hour)`, `faction.py`
lines 400-469: allocate one mercenary (fail the mission outright if none
is available), then attempt the grid mutation; the mercenary is never
released here, only by the pool timer.  Returns the success flag together
with the updated grid and pool.  (The source's final `else: success =
False` branch for unknown mission strings is unreachable with the
three-valued mission type.) -/
def executeMission (g : HexGrid) (pool : MercenaryPool) (selfColor : Color)
    (mission : Mission) (currentHour : Nat) :
    Bool × HexGrid × MercenaryPool :=
  let alloc := pool.allocate 1 currentHour
  if alloc.1 = false then (false, g, alloc.2)
  else
    let pool := alloc.2
    let homeCells := g.getHomeCells selfColor
    let connected := g.findConnectedCells homeCells
    let targetCell := g.getCell mission.target
    match mission.mtype with
    | MissionType.claim =>
        match targetCell with
        | some c =>
            if c.owner = none ∧ c.isPermanent = false ∧
                isHexReachable g mission.target connected = true then
              let g := g.updateCell mission.target
                (fun tc => ({ tc with owner := some selfColor }).setProtection
                  currentHour 3)
              let g := protectNeighbors g mission.target selfColor currentHour
              let g := expandGridIfNeeded g mission.target
              (true, g, pool)
            else (false, g, pool)
        | none => (false, g, pool)
    | _ =>
        match targetCell with
        | some c =>
            if (c.owner ≠ none ∧ c.owner ≠ some selfColor) ∧
                c.isHome = false ∧ c.isPermanent = false ∧
                isHexReachable g mission.target connected = true then
              if c.isProtected currentHour = false then
                let g := g.updateCell mission.target
                  (fun tc =>
                    ({ tc with owner := some selfColor }).setProtection
                      currentHour 3)
                let g := protectNeighbors g mission.target selfColor
                  currentHour
                (true, g, pool)
              else (false, g, pool)
            else (false, g, pool)
        | none => (false, g, pool)

end FactionAI

/-- `Faction`, `faction.py` lines 17-39: the per-colour ledger.  The
constant display fields `name`/`color` carry no state and are not
modelled. -/
structure Faction where
  credits : Rat
  dailyProduction : Rat
deriving DecidableEq, Repr, Inhabited

/-- `Faction.__init__`: `credits = 0` ("Factions no longer receive initial
credits"), `daily_production = 0.0`. -/
def Faction.mk0 : Faction := { credits := 0, dailyProduction := 0 }

/-- The `self.factions` dict of `Simulation`, keyed orange/green/blue in
insertion order. -/
structure FactionMap where
  orange : Faction
  green : Faction
  blue : Faction
deriving DecidableEq, Repr, Inhabited

namespace FactionMap

/-- Dict lookup. -/
def get (fm : FactionMap) : Color → Faction
  | Color.orange => fm.orange
  | Color.green => fm.green
  | Color.blue => fm.blue
  | Color.grey => Faction.mk0

/-- Dict update at one key (grey is never a faction key). -/
def set (fm : FactionMap) : Color → Faction → FactionMap
  | Color.orange, f => { fm with orange := f }
  | Color.green, f => { fm with green := f }
  | Color.blue, f => { fm with blue := f }
  | Color.grey, _ => fm

end FactionMap

/-- The mutable state of `Simulation`, `simulation.py` lines 7-31.  The
`faction_ais` dict holds no state of its own (each AI only aliases the
shared grid and pool), so it is not modelled. -/
structure SimState where
  grid : HexGrid
  pool : MercenaryPool
  factions : FactionMap
  currentHour : Nat
  currentDay : Nat
  currentWeek : Nat
deriving DecidableEq, Repr, Inhabited

namespace SimState

/-- `Simulation.__init__`. -/
def init : SimState :=
  { grid := HexGrid.init, pool := MercenaryPool.init 300,
    factions := { orange := Faction.mk0, green := Faction.mk0,
                  blue := Faction.mk0 },
    currentHour := 0, currentDay := 0, currentWeek := 0 }

/-- `Simulation.reset`, `simulation.py` lines 33-49: fresh grid, fresh
pool, counters cleared — but every faction's credits are set to `10_000`
(not to the `0` of `Faction.__init__`). -/
def resetSim (s : SimState) : SimState :=
  let resetFaction := fun (f : Faction) =>
    { f with credits := 10000, dailyProduction := 0 }
  { grid := HexGrid.init, pool := MercenaryPool.init 300,
    factions := { orange := resetFaction s.factions.orange,
                  green := resetFaction s.factions.green,
                  blue := resetFaction s.factions.blue },
    currentHour := 0, currentDay := 0, currentWeek := 0 }

/-- `Simulation._find_territory_bodies`' flood fill for one body:
pop the last frontier element (`list.pop()`), move every neighbouring
unvisited cell into the body.  Membership is by coordinate (one cell
object per coordinate). -/
def bodyFloodGo (g : HexGrid) :
    Nat → List Hex → List Hex → List Hex → List Hex × List Hex
  | 0, body, _, unvisited => (body, unvisited)
  | _ + 1, body, [], unvisited => (body, unvisited)
  | fuel + 1, body, frontier, unvisited =>
      let current := frontier.getLast!
      let rest := frontier.dropLast
      let step := (g.getNeighbors current).foldl
        (fun (acc : List Hex × List Hex × List Hex) n =>
          if n.hex ∈ acc.2.2 then
            (acc.1 ++ [n.hex], acc.2.1 ++ [n.hex],
             acc.2.2.filter (fun h => h ≠ n.hex))
          else acc)
        (body, rest, unvisited)
      bodyFloodGo g fuel step.1 step.2.1 step.2.2

/-- `Simulation._find_territory_bodies(cells)`: group the given cells into
connected bodies.  The set iteration of the source is modelled by list
order (header comment). -/
def findTerritoryBodies (g : HexGrid) :
    Nat → List Hex → List (List Hex)
  | 0, _ => []
  | _ + 1, [] => []
  | fuel + 1, start :: unvisited =>
      let flood := bodyFloodGo g (fuel + 1) [start] [start] unvisited
      flood.1 :: findTerritoryBodies g fuel flood.2

/-- `Simulation._find_edge_cells(body)`: body cells with fewer than six
in-body neighbours, sorted (stably) by in-body neighbour count. -/
def findEdgeCells (g : HexGrid) (body : List Hex) : List Hex :=
  let bodyCount := fun (h : Hex) =>
    ((g.getNeighbors h).filter (fun n => n.hex ∈ body)).length
  let edge := body.filter (fun h => bodyCount h < 6)
  stableSort (fun a b => bodyCount a ≤ bodyCount b) edge

/-- `Simulation._remove_orphaned_hexes(reclaimed_hex)`: remove adjacent
unclaimed hexes that no longer have any claimed neighbour. -/
def removeOrphanedHexes (g : HexGrid) (reclaimedHex : Hex) : HexGrid :=
  reclaimedHex.neighbors.foldl
    (fun g nh =>
      match g.getCell nh with
      | none => g
      | some neighbor =>
          if neighbor.owner ≠ none then g
          else if (g.getNeighbors nh).any (fun n => n.owner ≠ none) then g
          else g.removeHex nh)
    g

/-- Shrink one disconnected body: reset its first edge cell and prune
orphaned neighbours. -/
def shrinkBody (g : HexGrid) (body : List Hex) : HexGrid :=
  match (findEdgeCells g body).head? with
  | none => g
  | some cellToRemove =>
      let g := g.updateCell cellToRemove HexCell.reset
      removeOrphanedHexes g cellToRemove

/-- `Simulation._shrink_disconnected_territories` for one faction. -/
def shrinkFaction (g : HexGrid) (color : Color) : HexGrid :=
  let homeCells := g.getHomeCells color
  let factionCells := g.getFactionCells color
  if homeCells.isEmpty then g
  else
    let connected := g.findConnectedCells homeCells
    let disconnected := (factionCells.filter
      (fun c => c.hex ∉ connected ∧ c.isHome = false)).map (fun c => c.hex)
    if disconnected.isEmpty then g
    else
      let bodies := findTerritoryBodies g (disconnected.length + 1)
        disconnected
      bodies.foldl shrinkBody g

/-- `Simulation._shrink_disconnected_territories`, `simulation.py`
lines 115-146 (factions iterate in dict order orange, green, blue). -/
def shrinkDisconnectedTerritories (g : HexGrid) : HexGrid :=
  FactionAI.factionColors.foldl shrinkFaction g

/-- `Simulation._produce_resources` for one faction. -/
def produceFaction (g : HexGrid) (color : Color) : HexGrid :=
  let homeCells := g.getHomeCells color
  let factionCells := g.getFactionCells color
  if homeCells.isEmpty then g
  else
    let connected := g.findConnectedCells homeCells
    factionCells.foldl
      (fun g cell =>
        if cell.hex ∈ connected then
          g.updateCell cell.hex HexCell.produceResources
        else g)
      g

/-- `Simulation._produce_resources`, `simulation.py` lines 209-224. -/
def produceResourcesAll (g : HexGrid) : HexGrid :=
  FactionAI.factionColors.foldl produceFaction g

/-- `Simulation._process_daily` for one faction: deposit the resources of
every connected faction cell into the ledger and overwrite
`daily_production`. -/
def processDailyFaction (s : SimState) (color : Color) : SimState :=
  let homeCells := s.grid.getHomeCells color
  let factionCells := s.grid.getFactionCells color
  if homeCells.isEmpty then s
  else
    let connected := s.grid.findConnectedCells homeCells
    let step := factionCells.foldl
      (fun (acc : HexGrid × Rat) cell =>
        if cell.hex ∈ connected then
          match acc.1.getCell cell.hex with
          | some c =>
              (acc.1.updateCell cell.hex (fun c => { c with resources := 0 }),
               acc.2 + c.resources)
          | none => acc
        else acc)
      (s.grid, 0)
    let faction := s.factions.get color
    let faction := { faction with
      credits := faction.credits + step.2, dailyProduction := step.2 }
    { s with grid := step.1, factions := s.factions.set color faction }

/-- `Simulation._process_daily`, `simulation.py` lines 85-107. -/
def processDaily (s : SimState) : SimState :=
  FactionAI.factionColors.foldl processDailyFaction s

/-- `Simulation._process_weekly`: `Faction.weekly_reset` is a `pass`
("no longer resets credits"), so the weekly phase changes nothing. -/
def processWeekly (s : SimState) : SimState := s

/-- `Simulation._process_hourly`, `simulation.py` lines 74-83: release
finished mercenaries, shrink disconnected territory, produce resources. -/
def processHourly (s : SimState) : SimState :=
  let pool := s.pool.processHour s.currentHour
  let g := shrinkDisconnectedTerritories s.grid
  let g := produceResourcesAll g
  { s with pool := pool, grid := g }

/-- The explicit randomness of one simulated hour
(`Simulation._process_faction_actions`): the shuffled faction order and,
for each faction, the outcome of the 30% execution coin for each proposed
mission, indexed by the mission's position in the proposal list. -/
structure HourOracle where
  order : List Color
  coins : Color → Nat → Bool

/-- Execute the proposed missions of one faction: each mission executes
exactly when its coin is true, and later missions see the state mutated by
earlier ones. -/
def processFactionMissions (s : SimState) (color : Color)
    (coins : Nat → Bool) : SimState :=
  let missions := FactionAI.evaluateMissions s.grid color s.currentHour
  let step := missions.foldl
    (fun (acc : SimState × Nat) mission =>
      if coins acc.2 then
        let r := FactionAI.executeMission acc.1.grid acc.1.pool color mission
          acc.1.currentHour
        ({ acc.1 with grid := r.2.1, pool := r.2.2 }, acc.2 + 1)
      else (acc.1, acc.2 + 1))
    (s, 0)
  step.1

/-- `Simulation._process_faction_actions`, `simulation.py` lines 226-245,
with the shuffled order and the execution coins supplied by the oracle. -/
def processFactionActions (s : SimState) (o : HourOracle) : SimState :=
  o.order.foldl (fun s color => processFactionMissions s color (o.coins color))
    s

/-- `Simulation.step_hour`, `simulation.py` lines 51-72: advance the
clock, roll days/weeks, run the hourly phases, the daily phase on day
boundaries, and the factions' randomized turns. -/
def stepHour (s : SimState) (o : HourOracle) : SimState :=
  let s := { s with currentHour := s.currentHour + 1 }
  let s := if s.currentHour % 24 = 0 then
      { s with currentDay := s.currentDay + 1 } else s
  let s := if s.currentHour % 168 = 0 then
      processWeekly { s with currentWeek := s.currentWeek + 1 } else s
  let s := processHourly s
  let s := if s.currentHour % 24 = 0 then processDaily s else s
  processFactionActions s o

/-- The per-faction record of `Simulation.get_state`. -/
structure FactionView where
  credits : Rat
  dailyProduction : Rat
  territoryCount : Nat
deriving DecidableEq, Repr, Inhabited

/-- The read-only snapshot returned by `Simulation.get_state`,
`simulation.py` lines 247-263. -/
structure StateView where
  hour : Nat
  day : Nat
  week : Nat
  orange : FactionView
  green : FactionView
  blue : FactionView
  mercenaryPool : Nat
  mercenaryAvailable : Nat
deriving DecidableEq, Repr, Inhabited

/-- `Simulation.get_state`. -/
def getState (s : SimState) : StateView :=
  let view := fun (c : Color) =>
    { credits := (s.factions.get c).credits,
      dailyProduction := (s.factions.get c).dailyProduction,
      territoryCount := (s.grid.getFactionCells c).length : FactionView }
  { hour := s.currentHour, day := s.currentDay, week := s.currentWeek,
    orange := view Color.orange, green := view Color.green,
    blue := view Color.blue,
    mercenaryPool := s.pool.length,
    mercenaryAvailable := s.pool.getAvailableCount s.currentHour }

/-- The per-cell record of `Simulation.save_state`: the dict stored under
the key `"q,r"`.  The string key is the decimal rendering of the
coordinate pair, which the loader parses back with
`map(int, hex_str.split(','))`; that encoding is a bijection between
coordinates and well-formed keys, so the embedding keys the record by the
coordinate itself.  `native_sector` is (deliberately, per the source) not
part of the record. -/
structure CellRecord where
  owner : Option Color
  isHome : Bool
  isPermanent : Bool
  resources : Rat
  protectionUntil : Nat
deriving DecidableEq, Repr, Inhabited

/-- The per-mercenary record of `save_state`. -/
structure MercRecord where
  id : Nat
  assigned : Bool
  missionCompleteHour : Option Rat
deriving DecidableEq, Repr, Inhabited

/-- The serializable record returned by `Simulation.save_state`,
`simulation.py` lines 265-300. -/
structure SaveRecord where
  currentHour : Nat
  currentDay : Nat
  currentWeek : Nat
  mercenaryPoolSize : Nat
  mercenaries : List MercRecord
  factions : FactionMap
  cells : List (Hex × CellRecord)
deriving DecidableEq, Repr, Inhabited

/-- `Simulation.save_state`. -/
def saveState (s : SimState) : SaveRecord :=
  { currentHour := s.currentHour, currentDay := s.currentDay,
    currentWeek := s.currentWeek,
    mercenaryPoolSize := s.pool.length,
    mercenaries := s.pool.map (fun m =>
      { id := m.id, assigned := m.assigned,
        missionCompleteHour := m.missionCompleteHour }),
    factions := s.factions,
    cells := s.grid.cells.map (fun c =>
      (c.hex, { owner := c.owner, isHome := c.isHome,
                isPermanent := c.isPermanent, resources := c.resources,
                protectionUntil := c.protectionUntil })) }

/-- `Simulation.load_state(state)`, `simulation.py` lines 302-340, for a
record produced by this `save_state` (the `'mercenaries'` key is present,
so the new-format branch runs).  Cells are rebuilt with
`HexCell(hex_pos, owner, is_home, is_permanent)` — `native_sector`
defaults to `None` — and then `resources`/`protection_until` are set.
`grid.initial_hexes` is not touched by the loader. -/
def loadState (s : SimState) (record : SaveRecord) : SimState :=
  let pool : MercenaryPool := record.mercenaries.map (fun m =>
    { id := m.id, assigned := m.assigned,
      missionCompleteHour := m.missionCompleteHour })
  let cells := record.cells.map (fun hc =>
    { hex := hc.1, owner := hc.2.owner, isHome := hc.2.isHome,
      isPermanent := hc.2.isPermanent, nativeSector := none,
      resources := hc.2.resources,
      protectionUntil := hc.2.protectionUntil : HexCell })
  { s with
    currentHour := record.currentHour, currentDay := record.currentDay,
    currentWeek := record.currentWeek,
    pool := pool,
    factions := record.factions,
    grid := { s.grid with cells := cells } }

end SimState

namespace SimState

/-- What one save/load round trip does to a single cell: every field is
preserved except `native_sector`, which the loader leaves at its `None`
default. -/
def rtCell (c : HexCell) : HexCell :=
  { hex := c.hex, owner := c.owner, isHome := c.isHome,
    isPermanent := c.isPermanent, nativeSector := none,
    resources := c.resources, protectionUntil := c.protectionUntil }

theorem roundTrip_cells (s : SimState) :
    (s.loadState s.saveState).grid.cells = s.grid.cells.map rtCell := by
  simp only [loadState, saveState, List.map_map]
  rfl

theorem roundTrip_getCell (s : SimState) (h : Hex) :
    (s.loadState s.saveState).grid.getCell h =
      (s.grid.getCell h).map rtCell := by
  show ((s.loadState s.saveState).grid.cells.find? (fun c => c.hex = h)) = _
  rw [roundTrip_cells, List.find?_map]
  rfl

end SimState

/-- C10: after a `load_state(save_state())` round trip every cell in the
grid has `native_sector = None`: `save_state` omits `native_sector` from
the per-cell record and `load_state` rebuilds each cell without supplying
it, so the round trip does not preserve `native_sector`. -/
theorem round_trip_clears_native_sector (s : SimState) :
    ∀ c ∈ (s.loadState s.saveState).grid.cells, c.nativeSector = none := by
  intro c hc
  rw [SimState.roundTrip_cells] at hc
  obtain ⟨c', _, rfl⟩ := List.mem_map.mp hc
  rfl

set_option maxRecDepth 8000 in
/-- C10 witness: the round-tripped centre cell of the fresh simulation. -/
theorem round_trip_clears_native_sector_witness :
    ({ hex := ⟨0, 0⟩, owner := some Color.grey, isHome := true,
       isPermanent := true, nativeSector := none, resources := 0,
       protectionUntil := 0 } : HexCell).nativeSector = none :=
  round_trip_clears_native_sector SimState.init _ (by decide)

/-- C4: a `load_state(save_state())` round trip preserves `get_state()`'s
hour, day and week counters and every faction's credits and daily
production, and every cell keyed by coordinate keeps its owner,
permanence flag and protection timer. -/
theorem save_load_round_trip (s : SimState) :
    (s.loadState s.saveState).getState.hour = s.getState.hour ∧
    (s.loadState s.saveState).getState.day = s.getState.day ∧
    (s.loadState s.saveState).getState.week = s.getState.week ∧
    (s.loadState s.saveState).getState.orange.credits =
      s.getState.orange.credits ∧
    (s.loadState s.saveState).getState.green.credits =
      s.getState.green.credits ∧
    (s.loadState s.saveState).getState.blue.credits =
      s.getState.blue.credits ∧
    (s.loadState s.saveState).getState.orange.dailyProduction =
      s.getState.orange.dailyProduction ∧
    (s.loadState s.saveState).getState.green.dailyProduction =
      s.getState.green.dailyProduction ∧
    (s.loadState s.saveState).getState.blue.dailyProduction =
      s.getState.blue.dailyProduction ∧
    (∀ (h : Hex) (c : HexCell), s.grid.getCell h = some c →
      ∃ c', (s.loadState s.saveState).grid.getCell h = some c' ∧
        c'.owner = c.owner ∧ c'.isPermanent = c.isPermanent ∧
        c'.protectionUntil = c.protectionUntil) ∧
    (∀ (h : Hex) (c' : HexCell),
      (s.loadState s.saveState).grid.getCell h = some c' →
      ∃ c, s.grid.getCell h = some c ∧
        c'.owner = c.owner ∧ c'.isPermanent = c.isPermanent ∧
        c'.protectionUntil = c.protectionUntil) := by
  refine ⟨rfl, rfl, rfl, rfl, rfl, rfl, rfl, rfl, rfl, ?_, ?_⟩
  · intro h c hc
    exact ⟨SimState.rtCell c,
      by rw [SimState.roundTrip_getCell, hc]; rfl, rfl, rfl, rfl⟩
  · intro h c' hc'
    rw [SimState.roundTrip_getCell] at hc'
    match hm : s.grid.getCell h with
    | some c =>
        rw [hm] at hc'
        exact ⟨c, rfl, by cases hc'; rfl, by cases hc'; rfl, by cases hc'; rfl⟩
    | none => rw [hm] at hc'; cases hc'

set_option maxRecDepth 8000 in
/-- C4 witness: the round trip applied to the fresh simulation, checked at
the centre coordinate. -/
theorem save_load_round_trip_witness :
    ∃ c', (SimState.init.loadState SimState.init.saveState).grid.getCell
        ⟨0, 0⟩ = some c' ∧
      c'.owner = some Color.grey ∧ c'.isPermanent = true ∧
      c'.protectionUntil = 0 := by
  obtain ⟨c', h1, h2, h3, h4⟩ :=
    (save_load_round_trip SimState.init).2.2.2.2.2.2.2.2.2.1 ⟨0, 0⟩
      { hex := ⟨0, 0⟩, owner := some Color.grey, isHome := true,
        isPermanent := true,
        nativeSector := some Color.orange, resources := 0,
        protectionUntil := 0 } (by decide)
  exact ⟨c', h1, by rw [h2], by rw [h3], by rw [h4]⟩

/-- C5 (code bug): `Simulation.reset` restores the grid, the mercenary
pool, the production ledgers and the counters to their
construction-time values, but sets every faction's credits to `10_000`,
whereas `Faction.__init__` (and hence a fresh `Simulation`) starts credits
at `0`. -/
theorem reset_credits_diverge (s : SimState) :
    (s.resetSim).grid = SimState.init.grid ∧
    (s.resetSim).pool = SimState.init.pool ∧
    (s.resetSim).currentHour = 0 ∧ (s.resetSim).currentDay = 0 ∧
    (s.resetSim).currentWeek = 0 ∧
    (s.resetSim).factions.orange.dailyProduction = 0 ∧
    (s.resetSim).factions.green.dailyProduction = 0 ∧
    (s.resetSim).factions.blue.dailyProduction = 0 ∧
    (s.resetSim).factions.orange.credits = 10000 ∧
    (s.resetSim).factions.green.credits = 10000 ∧
    (s.resetSim).factions.blue.credits = 10000 ∧
    SimState.init.factions.orange.credits = 0 ∧
    SimState.init.factions.green.credits = 0 ∧
    SimState.init.factions.blue.credits = 0 :=
  ⟨rfl, rfl, rfl, rfl, rfl, rfl, rfl, rfl, rfl, rfl, rfl, rfl, rfl, rfl⟩

open FactionAI in
/-- C2: for every mission kind, target and grid, the computed reward is an
integer of at least 100; and for claim/reclaim executed by the faction
with the fewest territories (the first minimal faction in the fixed
orange/green/blue tie-break order) the base reward is multiplied by
`min(3.0, 1 + (most/max(least,1) - 1) * 0.5)` — fixed at `3.0` when that
faction has zero territory — truncated to an integer before the floor of
100 is applied. -/
theorem mission_reward_floor_and_underdog (g : HexGrid) (selfColor : Color)
    (t : MissionType) (target : Hex) :
    100 ≤ calculateMissionReward g selfColor t target ∧
    ((t = MissionType.claim ∨ t = MissionType.reclaim) →
      selfColor = (factionWithLeast (getTerritoryCounts g)).1 →
      calculateMissionReward g selfColor t target =
        max 100 (pyInt ((baseReward t : Rat) *
          (if (factionWithLeast (getTerritoryCounts g)).2 = 0 then 3
           else min 3 (1 +
             (((factionWithMost (getTerritoryCounts g)).2 : Rat) /
               ((max (factionWithLeast (getTerritoryCounts g)).2 1 : Nat) : Rat)
               - 1) * (1 / 2)))))) := by
  constructor
  · cases t <;> exact le_max_left _ _
  · rintro (rfl | rfl) hself <;>
    · simp only [calculateMissionReward, if_pos hself]
      by_cases h0 : (factionWithLeast (getTerritoryCounts g)).2 = 0
      · simp [h0]
      · have hpos : (factionWithLeast (getTerritoryCounts g)).2 > 0 :=
          Nat.pos_of_ne_zero h0
        simp only [if_pos hpos, if_neg h0]
        rw [min_comm]

set_option maxRecDepth 8000 in
open FactionAI in
/-- C2 witness: on the fresh grid all three counts are 13, orange is the
least faction by tie-break, and a claim reward evaluates to the base 1000
(multiplier 1). -/
theorem mission_reward_floor_and_underdog_witness :
    100 ≤ calculateMissionReward HexGrid.init Color.orange
      MissionType.claim ⟨0, 0⟩ ∧
    calculateMissionReward HexGrid.init Color.orange
      MissionType.claim ⟨0, 0⟩ = 1000 := by
  have h := mission_reward_floor_and_underdog HexGrid.init Color.orange
    MissionType.claim ⟨0, 0⟩
  refine ⟨h.1, ?_⟩
  rw [h.2 (Or.inl rfl) (by decide)]
  with_unfolding_all decide

namespace MercenaryPool

theorem assignMission_ne_self (m : Mercenary) (h : Nat)
    (hav : m.isAvailable h = true) : m.assignMission h ≠ m := by
  intro heq
  by_cases ha : m.assigned = false
  · have hass := congrArg Mercenary.assigned heq
    rw [ha] at hass
    simp [Mercenary.assignMission] at hass
  · unfold Mercenary.isAvailable at hav
    rw [if_neg ha] at hav
    match hmch : m.missionCompleteHour with
    | none => rw [hmch] at hav; cases hav
    | some t =>
        rw [hmch] at hav
        have hle : t ≤ (h : Rat) := of_decide_eq_true hav
        have hm := congrArg Mercenary.missionCompleteHour heq
        rw [hmch] at hm
        have ht : (h : Rat) + 1 / 2 = t := Option.some.inj hm
        rw [← ht] at hle
        linarith

theorem allocateGo_length (hour : Nat) : ∀ (ms : List Mercenary) (n : Nat),
    (allocateGo hour n ms).length = ms.length := by
  intro ms
  induction ms with
  | nil => intro n; cases n <;> rfl
  | cons m ms ih =>
      intro n
      cases n with
      | zero => rfl
      | succ k =>
          by_cases hm : m.isAvailable hour = true
          · simp [allocateGo, hm, ih]
          · simp [allocateGo, hm, ih]

theorem mem_zip_self (l : List Mercenary) (p : Mercenary × Mercenary)
    (hp : p ∈ l.zip l) : p.1 = p.2 := by
  induction l with
  | nil => cases hp
  | cons a l ih =>
      rw [List.zip_cons_cons, List.mem_cons] at hp
      rcases hp with rfl | hp
      · rfl
      · exact ih hp

theorem countP_zip_self (l : List Mercenary) :
    (l.zip l).countP (fun p => decide (p.1 ≠ p.2)) = 0 :=
  List.countP_eq_zero.mpr (fun p hp => by simp [mem_zip_self l p hp])

theorem getAvailableCount_cons (hour : Nat) (m : Mercenary)
    (ms : List Mercenary) :
    getAvailableCount (m :: ms) hour =
      (if m.isAvailable hour = true then 1 else 0) +
        getAvailableCount ms hour := by
  unfold getAvailableCount
  rw [List.filter_cons]
  by_cases hm : m.isAvailable hour = true
  · rw [if_pos hm, if_pos hm, List.length_cons, Nat.add_comm]
  · rw [if_neg hm, if_neg hm, Nat.zero_add]

theorem allocateGo_spec (hour : Nat) : ∀ (ms : List Mercenary) (n : Nat),
    n ≤ getAvailableCount ms hour →
    ((ms.zip (allocateGo hour n ms)).countP
        (fun p => decide (p.1 ≠ p.2)) = n ∧
      ∀ p ∈ ms.zip (allocateGo hour n ms), p.1 ≠ p.2 →
        p.1.isAvailable hour = true ∧ p.2 = p.1.assignMission hour) := by
  intro ms
  induction ms with
  | nil =>
      intro n hn
      have h0 : n = 0 := Nat.le_zero.mp hn
      subst h0
      exact ⟨rfl, by intro p hp; cases hp⟩
  | cons m ms ih =>
      intro n hn
      cases n with
      | zero =>
          refine ⟨countP_zip_self _, ?_⟩
          intro p hp hne
          exact absurd (mem_zip_self _ p hp) hne
      | succ k =>
          by_cases hm : m.isAvailable hour = true
          · have hzip : (m :: ms).zip (allocateGo hour (k + 1) (m :: ms)) =
                (m, m.assignMission hour) :: ms.zip (allocateGo hour k ms) := by
              simp [allocateGo, hm]
            have hcount : getAvailableCount (m :: ms) hour =
                1 + getAvailableCount ms hour := by
              rw [getAvailableCount_cons, if_pos hm]
            rw [hcount] at hn
            have hk : k ≤ getAvailableCount ms hour := by omega
            obtain ⟨ihc, ihp⟩ := ih k hk
            rw [hzip]
            constructor
            · rw [List.countP_cons]
              have hne : decide (m ≠ m.assignMission hour) = true :=
                decide_eq_true (fun h =>
                  assignMission_ne_self m hour hm h.symm)
              rw [ihc, hne]
              simp
            · intro p hp hne
              rw [List.mem_cons] at hp
              rcases hp with rfl | hp
              · exact ⟨hm, rfl⟩
              · exact ihp p hp hne
          · have hzip : (m :: ms).zip (allocateGo hour (k + 1) (m :: ms)) =
                (m, m) :: ms.zip (allocateGo hour (k + 1) ms) := by
              simp [allocateGo, hm]
            have hcount : getAvailableCount (m :: ms) hour =
                getAvailableCount ms hour := by
              rw [getAvailableCount_cons, if_neg hm, Nat.zero_add]
            rw [hcount] at hn
            obtain ⟨ihc, ihp⟩ := ih (k + 1) hn
            rw [hzip]
            constructor
            · rw [List.countP_cons, ihc]
              simp
            · intro p hp hne
              rw [List.mem_cons] at hp
              rcases hp with rfl | hp
              · exact absurd rfl hne
              · exact ihp p hp hne

theorem isAvailable_assignMission (m : Mercenary) (hour h : Nat) :
    (m.assignMission hour).isAvailable h = true ↔
      (hour : Rat) + 1 / 2 ≤ (h : Rat) := by
  unfold Mercenary.isAvailable Mercenary.assignMission
  simp

end MercenaryPool

/-- C6: `MercenaryPool.allocate(count, hour)` is all-or-nothing: either it
returns true having marked exactly `count` previously-available
mercenaries assigned with `mission_complete_hour = hour + 0.5`, leaving
every other mercenary untouched, or it returns false with the pool
completely unchanged. -/
theorem allocate_all_or_nothing (pool : MercenaryPool)
    (count currentHour : Nat) :
    ((pool.allocate count currentHour).1 = false →
      (pool.allocate count currentHour).2 = pool) ∧
    ((pool.allocate count currentHour).1 = true →
      (pool.allocate count currentHour).2.length = pool.length ∧
      (pool.zip (pool.allocate count currentHour).2).countP
        (fun p => decide (p.1 ≠ p.2)) = count ∧
      ∀ p ∈ pool.zip (pool.allocate count currentHour).2, p.1 ≠ p.2 →
        p.1.isAvailable currentHour = true ∧
        p.2 = p.1.assignMission currentHour ∧
        p.2.assigned = true ∧
        p.2.missionCompleteHour = some ((currentHour : Rat) + 1 / 2)) := by
  by_cases hc : count ≤ MercenaryPool.getAvailableCount pool currentHour
  · have halloc : pool.allocate count currentHour =
        (true, MercenaryPool.allocateGo currentHour count pool) := by
      unfold MercenaryPool.allocate
      rw [if_pos hc]
    rw [halloc]
    constructor
    · intro h
      exact absurd h (by simp)
    intro _
    obtain ⟨hcp, hpt⟩ := MercenaryPool.allocateGo_spec currentHour pool count hc
    refine ⟨MercenaryPool.allocateGo_length currentHour pool count, hcp, ?_⟩
    intro p hp hne
    obtain ⟨hav, heq⟩ := hpt p hp hne
    refine ⟨hav, heq, ?_, ?_⟩
    · rw [heq]; rfl
    · rw [heq]; rfl
  · have halloc : pool.allocate count currentHour = (false, pool) := by
      unfold MercenaryPool.allocate
      rw [if_neg hc]
    rw [halloc]
    exact ⟨fun _ => rfl, fun h => absurd h (by simp)⟩

/-- C6 witness: allocating one mercenary from a one-mercenary pool at
hour 0 succeeds and changes exactly one mercenary. -/
theorem allocate_all_or_nothing_witness :
    (MercenaryPool.allocate [Mercenary.mk0 0] 1 0).1 = true ∧
    (MercenaryPool.allocate [Mercenary.mk0 0] 1 0).2.length = 1 ∧
    (([Mercenary.mk0 0] : MercenaryPool).zip
        (MercenaryPool.allocate [Mercenary.mk0 0] 1 0).2).countP
      (fun p => decide (p.1 ≠ p.2)) = 1 := by
  have h := allocate_all_or_nothing [Mercenary.mk0 0] 1 0
  have ht : (MercenaryPool.allocate [Mercenary.mk0 0] 1 0).1 = true := by
    with_unfolding_all decide
  obtain ⟨hl, hcp, _⟩ := h.2 ht
  exact ⟨ht, hl, hcp⟩

open FactionAI in
/-- C8: a claim mission whose target coordinate has no cell, or whose
target cell already has an owner, fails — but the one allocated mercenary
stays committed (the pool after the call is exactly the pool after
`allocate`, with exactly one mercenary newly assigned), and that mercenary
becomes available again exactly when its half-hour timer elapses, never by
a refund inside `execute_mission`; the grid is unchanged. -/
theorem failed_claim_commits_mercenary (g : HexGrid) (pool : MercenaryPool)
    (selfColor : Color) (mission : Mission) (currentHour : Nat)
    (hm : mission.mtype = MissionType.claim)
    (hbad : g.getCell mission.target = none ∨
      ∃ c, g.getCell mission.target = some c ∧ c.owner ≠ none)
    (hav : 1 ≤ pool.getAvailableCount currentHour) :
    (executeMission g pool selfColor mission currentHour).1 = false ∧
    (executeMission g pool selfColor mission currentHour).2.1 = g ∧
    (executeMission g pool selfColor mission currentHour).2.2 =
      MercenaryPool.allocateGo currentHour 1 pool ∧
    (pool.zip (MercenaryPool.allocateGo currentHour 1 pool)).countP
      (fun p => decide (p.1 ≠ p.2)) = 1 ∧
    ∀ p ∈ pool.zip (MercenaryPool.allocateGo currentHour 1 pool), p.1 ≠ p.2 →
      ∀ h : Nat, (p.2.isAvailable h = true ↔
        (currentHour : Rat) + 1 / 2 ≤ (h : Rat)) := by
  have halloc : pool.allocate 1 currentHour =
      (true, MercenaryPool.allocateGo currentHour 1 pool) := by
    unfold MercenaryPool.allocate
    rw [if_pos hav]
  obtain ⟨hcp, hpt⟩ := MercenaryPool.allocateGo_spec currentHour pool 1 hav
  have hrest : (pool.zip (MercenaryPool.allocateGo currentHour 1 pool)).countP
      (fun p => decide (p.1 ≠ p.2)) = 1 ∧
      ∀ p ∈ pool.zip (MercenaryPool.allocateGo currentHour 1 pool),
        p.1 ≠ p.2 → ∀ h : Nat, (p.2.isAvailable h = true ↔
          (currentHour : Rat) + 1 / 2 ≤ (h : Rat)) := by
    refine ⟨hcp, ?_⟩
    intro p hp hne h
    obtain ⟨hav2, heq⟩ := hpt p hp hne
    rw [heq]
    exact MercenaryPool.isAvailable_assignMission p.1 currentHour h
  have hexec : executeMission g pool selfColor mission currentHour =
      (false, g, MercenaryPool.allocateGo currentHour 1 pool) := by
    rcases hbad with hnone | ⟨c, hc, howner⟩
    · simp only [executeMission, halloc, hm, hnone]
      rfl
    · simp only [executeMission, halloc, hm, hc]
      rw [if_neg (show ¬(true = false) by simp)]
      rw [if_neg (fun hcond => howner hcond.1)]
  rw [hexec]
  exact ⟨rfl, rfl, rfl, hrest.1, hrest.2⟩

/-- A one-cell grid whose only cell is owned: the target of the C8 witness
mission. -/
def gridW : HexGrid :=
  { cells := [HexCell.mk0 ⟨0, 0⟩ (some Color.grey) true true none],
    initialHexes := [⟨0, 0⟩] }

/-- The C8 witness mission: claim the already-owned cell. -/
def missionW : Mission :=
  { mtype := MissionType.claim, target := ⟨0, 0⟩, faction := Color.orange,
    reward := 1000 }

open FactionAI in
/-- C8 witness: claiming the owned cell of `gridW` with a one-mercenary
pool fails, leaves the grid unchanged, and commits the mercenary. -/
theorem failed_claim_commits_mercenary_witness :
    (executeMission gridW [Mercenary.mk0 0] Color.orange missionW 0).1 =
      false ∧
    (executeMission gridW [Mercenary.mk0 0] Color.orange missionW 0).2.1 =
      gridW ∧
    (List.zip [Mercenary.mk0 0]
        (MercenaryPool.allocateGo 0 1 [Mercenary.mk0 0])).countP
      (fun p => decide (p.1 ≠ p.2)) = 1 := by
  have h := failed_claim_commits_mercenary gridW [Mercenary.mk0 0]
    Color.orange missionW 0 rfl
    (Or.inr ⟨HexCell.mk0 ⟨0, 0⟩ (some Color.grey) true true none,
      by decide, by decide⟩)
    (by decide)
  exact ⟨h.1, h.2.1, h.2.2.2.1⟩

namespace FactionAI

theorem reconnectNbrs_inl (selfColor : Color) (connected : List Hex)
    (path : List Hex) :
    ∀ (ns : List HexCell) (visited : List Hex)
      (queue : List (Hex × List Hex)) (found : List Hex),
      reconnectNbrs selfColor connected path ns visited queue =
        Sum.inl found →
      found ≠ [] ∧ found.headI ∈ connected := by
  intro ns
  induction ns with
  | nil =>
      intro visited queue found h
      simp [reconnectNbrs] at h
  | cons n ns ih =>
      intro visited queue found h
      simp only [reconnectNbrs] at h
      split_ifs at h with h1 h2 h3
      · exact ih _ _ _ h
      · have hfound : (path ++ [n.hex]).reverse = found := Sum.inl.inj h
        refine ⟨?_, ?_⟩
        · rw [← hfound]
          simp
        · rw [← hfound, List.reverse_append]
          simpa using h2
      · exact ih _ _ _ h
      · exact ih _ _ _ h

theorem reconnectGo_inl (g : HexGrid) (selfColor : Color)
    (connected : List Hex) :
    ∀ (fuel : Nat) (queue : List (Hex × List Hex)) (visited : List Hex)
      (p : List Hex),
      reconnectGo g selfColor connected fuel queue visited = some p →
      p ≠ [] ∧ p.headI ∈ connected := by
  intro fuel
  induction fuel with
  | zero => intro queue visited p h; cases h
  | succ fuel ih =>
      intro queue visited p h
      match queue with
      | [] => cases h
      | (current, path) :: queue =>
          rw [show reconnectGo g selfColor connected (fuel + 1)
              ((current, path) :: queue) visited =
              (match reconnectNbrs selfColor connected path
                  (g.getNeighbors current) visited queue with
                | Sum.inl found => some found
                | Sum.inr (visited, queue) =>
                    reconnectGo g selfColor connected fuel queue visited)
            from rfl] at h
          cases hr : reconnectNbrs selfColor connected path
              (g.getNeighbors current) visited queue with
          | inl found =>
              rw [hr] at h
              have : found = p := Option.some.inj h
              subst this
              exact reconnectNbrs_inl selfColor connected path _ _ _ _ hr
          | inr vq =>
              rw [hr] at h
              exact ih _ _ _ h

theorem reclaimMissions_go (g : HexGrid) (selfColor : Color)
    (connected : List Hex) :
    ∀ (l : List HexCell) (acc : List Mission),
      (∀ m ∈ acc, m.mtype = MissionType.reclaim ∧ m.target ∈ connected) →
      ∀ m ∈ l.foldl
        (fun ms cell =>
          match findShortestReconnectionPath g selfColor cell connected with
          | some path =>
              ms ++ [{ mtype := MissionType.reclaim, target := path.headI,
                       faction := selfColor,
                       reward := calculateMissionReward g selfColor
                         MissionType.reclaim path.headI }]
          | none => ms)
        acc,
      m.mtype = MissionType.reclaim ∧ m.target ∈ connected := by
  intro l
  induction l with
  | nil => intro acc hacc m hm; exact hacc m hm
  | cons cell l ih =>
      intro acc hacc m hm
      rw [List.foldl_cons] at hm
      cases hp : findShortestReconnectionPath g selfColor cell connected with
      | none =>
          rw [hp] at hm
          exact ih acc hacc m hm
      | some path =>
          rw [hp] at hm
          refine ih (acc ++
            [{ mtype := MissionType.reclaim, target := path.headI,
               faction := selfColor,
               reward := calculateMissionReward g selfColor
                 MissionType.reclaim path.headI }]) ?_ m hm
          intro m' hm'
          rw [List.mem_append] at hm'
          rcases hm' with hm' | hm'
          · exact hacc m' hm'
          · rw [List.mem_singleton] at hm'
            subst hm'
            exact ⟨rfl,
              (reconnectGo_inl g selfColor connected _ _ _ _ hp).2⟩

/-- C3 (amended): whenever the breadth-first reconnection search returns a
path, the reversed path is nonempty and starts at the hex of the connected
component that stopped the search — a member of the component, not merely
adjacent to it — and every generated reclaim mission takes that first hex
as its target, so every reclaim-mission target lies inside the connected
component. -/
theorem reclaim_path_head_in_connected (g : HexGrid) (selfColor : Color)
    (connected : List Hex) :
    (∀ (cell : HexCell) (path : List Hex),
      findShortestReconnectionPath g selfColor cell connected = some path →
      path ≠ [] ∧ path.headI ∈ connected) ∧
    (∀ (disconnected : List HexCell) (m : Mission),
      m ∈ reclaimMissions g selfColor disconnected connected →
      m.mtype = MissionType.reclaim ∧ m.target ∈ connected) := by
  constructor
  · intro cell path hp
    exact reconnectGo_inl g selfColor connected _ _ _ _ hp
  · intro disconnected m hm
    exact reclaimMissions_go g selfColor connected _ _ (by intro m' hm'; cases hm')
      m hm

end FactionAI

/-- The C3 counterexample grid: an orange home at the origin, an unclaimed
cell at `(1,0)`, and a disconnected orange cell at `(2,0)`. -/
def gridC3 : HexGrid :=
  { cells := [HexCell.mk0 ⟨0, 0⟩ (some Color.orange) true true none,
              HexCell.mk0 ⟨1, 0⟩ none false false none,
              HexCell.mk0 ⟨2, 0⟩ (some Color.orange) false false none],
    initialHexes := [] }

/-- The disconnected orange cell of `gridC3`. -/
def cellC3 : HexCell := HexCell.mk0 ⟨2, 0⟩ (some Color.orange) false false none

/-- The connected component of orange's home in `gridC3`: just the origin. -/
def connC3 : List Hex := gridC3.findConnectedCells (gridC3.getHomeCells Color.orange)

set_option maxRecDepth 40000 in
open FactionAI in
/-- C3 counterexample: on `gridC3` the search finds the path
`[(0,0), (1,0)]` whose first hex `(0,0)` is a member of the connected
component (the claim instead asserts the first hex is adjacent to, and not
a member of, the component), and the generated reclaim mission targets
that member hex. -/
theorem reclaim_path_head_member_cex :
    findShortestReconnectionPath gridC3 Color.orange cellC3 connC3 =
      some [⟨0, 0⟩, ⟨1, 0⟩] ∧
    (⟨0, 0⟩ : Hex) ∈ connC3 ∧
    (evaluateMissions gridC3 Color.orange 0).head? =
      some { mtype := MissionType.reclaim, target := ⟨0, 0⟩,
             faction := Color.orange, reward := 900 } := by
  refine ⟨by decide, by decide, ?_⟩
  with_unfolding_all decide

set_option maxRecDepth 40000 in
open FactionAI in
/-- C3 witness: the amended theorem applied to `gridC3`. -/
theorem reclaim_path_head_in_connected_witness :
    ([⟨0, 0⟩, ⟨1, 0⟩] : List Hex) ≠ [] ∧
    ([⟨0, 0⟩, ⟨1, 0⟩] : List Hex).headI ∈ connC3 :=
  (reclaim_path_head_in_connected gridC3 Color.orange connC3).1 cellC3
    [⟨0, 0⟩, ⟨1, 0⟩] (by decide)

/-- The C7 invariant, as stated by the spec: every unclaimed cell present
in the grid is adjacent to at least one claimed cell. -/
def unclaimedAdjacent (g : HexGrid) : Bool :=
  g.cells.all (fun c =>
    c.owner.isSome || (g.getNeighbors c.hex).any (fun n => n.owner.isSome))

/-- The C7 failing grid: an orange home at the origin and a single
disconnected orange cell at `(3,0)` whose six neighbours are all present
and unclaimed (each of those neighbours is adjacent to the claimed
`(3,0)`, so the invariant holds). -/
def gridC7 : HexGrid :=
  { cells := [HexCell.mk0 ⟨0, 0⟩ (some Color.orange) true true none,
              HexCell.mk0 ⟨3, 0⟩ (some Color.orange) false false none,
              HexCell.mk0 ⟨4, 0⟩ none false false none,
              HexCell.mk0 ⟨4, -1⟩ none false false none,
              HexCell.mk0 ⟨3, -1⟩ none false false none,
              HexCell.mk0 ⟨2, 0⟩ none false false none,
              HexCell.mk0 ⟨2, 1⟩ none false false none,
              HexCell.mk0 ⟨3, 1⟩ none false false none],
    initialHexes := [⟨0, 0⟩] }

/-- The C7 failing simulation state: `gridC7` at hour 5 (no day or week
boundary is crossed by the next step). -/
def simC7 : SimState :=
  { grid := gridC7, pool := MercenaryPool.init 3,
    factions := { orange := Faction.mk0, green := Faction.mk0,
                  blue := Faction.mk0 },
    currentHour := 5, currentDay := 0, currentWeek := 0 }

/-- An oracle whose execution coins are all false: the factions take their
turns but execute no mission. -/
def oracleC7 : SimState.HourOracle :=
  { order := FactionAI.factionColors, coins := fun _ _ => false }

set_option maxRecDepth 100000 in
/-- C7 (code bug): `simC7` satisfies the unclaimed-adjacency invariant,
but one `step_hour` breaks it: the shrink phase resets the single-cell
disconnected body `(3,0)` to unclaimed and `_remove_orphaned_hexes` prunes
only the *neighbours* of the reset cell — never the reset cell itself —
so `(3,0)` survives as an unclaimed cell with no neighbours at all. -/
theorem shrink_leaves_isolated_unclaimed_cell :
    unclaimedAdjacent simC7.grid = true ∧
    ((SimState.stepHour simC7 oracleC7).grid.getCell ⟨3, 0⟩).map
      (fun c => c.owner) = some none ∧
    (SimState.stepHour simC7 oracleC7).grid.getNeighbors ⟨3, 0⟩ = [] ∧
    unclaimedAdjacent (SimState.stepHour simC7 oracleC7).grid = false := by
  refine ⟨by decide, ?_, ?_, ?_⟩ <;> with_unfolding_all decide

/-- The iterated hour step from a freshly constructed simulation, with the
randomness of hour `k` supplied by `os k`. -/
def runSim (os : Nat → SimState.HourOracle) : Nat → SimState
  | 0 => SimState.init
  | k + 1 => SimState.stepHour (runSim os k) (os k)

theorem executeMission_pool_length (g : HexGrid) (pool : MercenaryPool)
    (color : Color) (m : Mission) (hour : Nat) :
    (FactionAI.executeMission g pool color m hour).2.2.length =
      pool.length := by
  unfold FactionAI.executeMission
  by_cases hc : 1 ≤ pool.getAvailableCount hour
  · have halloc : pool.allocate 1 hour =
        (true, MercenaryPool.allocateGo hour 1 pool) := by
      unfold MercenaryPool.allocate
      rw [if_pos hc]
    rw [halloc]
    rw [if_neg (show ¬((true, MercenaryPool.allocateGo hour 1 pool).1 = false)
      by simp)]
    have hlen := MercenaryPool.allocateGo_length hour pool 1
    dsimp only
    split
    · split
      · split_ifs <;> simpa using hlen
      · simpa using hlen
    · split
      · split_ifs <;> simpa using hlen
      · simpa using hlen
  · have halloc : pool.allocate 1 hour = (false, pool) := by
      unfold MercenaryPool.allocate
      rw [if_neg (by omega : ¬ (1 ≤ pool.getAvailableCount hour))]
    rw [halloc]
    rfl

namespace SimState

/-- The quantities of C9: the three counters together with the pool size.
`clockPool s t` says the step from `s` to `t` left all four unchanged. -/
def clockPool (s t : SimState) : Prop :=
  t.currentHour = s.currentHour ∧ t.currentDay = s.currentDay ∧
  t.currentWeek = s.currentWeek ∧ t.pool.length = s.pool.length

theorem clockPool_refl (s : SimState) : clockPool s s := ⟨rfl, rfl, rfl, rfl⟩

theorem clockPool_trans {s t u : SimState} (h1 : clockPool s t)
    (h2 : clockPool t u) : clockPool s u :=
  ⟨h2.1.trans h1.1, h2.2.1.trans h1.2.1, h2.2.2.1.trans h1.2.2.1,
   h2.2.2.2.trans h1.2.2.2⟩

theorem foldl_clockPool {α : Type} (f : SimState → α → SimState)
    (hf : ∀ s a, clockPool s (f s a)) :
    ∀ (l : List α) (s : SimState), clockPool s (l.foldl f s) := by
  intro l
  induction l with
  | nil => intro s; exact clockPool_refl s
  | cons a l ih =>
      intro s
      exact clockPool_trans (hf s a) (ih (f s a))

theorem foldl_clockPool' {α : Type} (f : SimState × Nat → α → SimState × Nat)
    (hf : ∀ acc a, clockPool acc.1 (f acc a).1) :
    ∀ (l : List α) (acc : SimState × Nat), clockPool acc.1 (l.foldl f acc).1 := by
  intro l
  induction l with
  | nil => intro acc; exact clockPool_refl acc.1
  | cons a l ih =>
      intro acc
      exact clockPool_trans (hf acc a) (ih (f acc a))

theorem processHour_length (pool : MercenaryPool) (hour : Nat) :
    (pool.processHour hour).length = pool.length :=
  List.length_map _ _

theorem processHourly_clock (s : SimState) : clockPool s (processHourly s) :=
  ⟨rfl, rfl, rfl, processHour_length s.pool s.currentHour⟩

theorem processDailyFaction_clock (s : SimState) (color : Color) :
    clockPool s (processDailyFaction s color) := by
  unfold processDailyFaction
  dsimp only
  split
  · exact clockPool_refl s
  · exact ⟨rfl, rfl, rfl, rfl⟩

theorem processDaily_clock (s : SimState) : clockPool s (processDaily s) :=
  foldl_clockPool processDailyFaction processDailyFaction_clock _ s

theorem processFactionMissions_clock (s : SimState) (color : Color)
    (coins : Nat → Bool) : clockPool s (processFactionMissions s color coins) := by
  unfold processFactionMissions
  refine foldl_clockPool' _ ?_ _ (s, 0)
  intro acc mission
  by_cases hcoin : coins acc.2 = true
  · simp only [hcoin, if_true]
    exact ⟨rfl, rfl, rfl,
      executeMission_pool_length acc.1.grid acc.1.pool color mission
        acc.1.currentHour⟩
  · simp only [Bool.not_eq_true] at hcoin
    simp only [hcoin]
    exact clockPool_refl acc.1

theorem processFactionActions_clock (s : SimState) (o : HourOracle) :
    clockPool s (processFactionActions s o) :=
  foldl_clockPool _ (fun s c => processFactionMissions_clock s c (o.coins c))
    o.order s

theorem stepHourAux_clock (t : SimState) (o : HourOracle) :
    clockPool t (processFactionActions
      (if (processHourly t).currentHour % 24 = 0 then
        processDaily (processHourly t)
       else processHourly t) o) := by
  have h1 := processHourly_clock t
  split
  · exact clockPool_trans (clockPool_trans h1 (processDaily_clock _))
      (processFactionActions_clock _ o)
  · exact clockPool_trans h1 (processFactionActions_clock _ o)

theorem stepHour_clock (s : SimState) (o : HourOracle) :
    (stepHour s o).currentHour = s.currentHour + 1 ∧
    (stepHour s o).currentDay =
      (if (s.currentHour + 1) % 24 = 0 then s.currentDay + 1
       else s.currentDay) ∧
    (stepHour s o).currentWeek =
      (if (s.currentHour + 1) % 168 = 0 then s.currentWeek + 1
       else s.currentWeek) ∧
    (stepHour s o).pool.length = s.pool.length := by
  unfold stepHour processWeekly
  dsimp only
  by_cases h24 : (s.currentHour + 1) % 24 = 0 <;>
    by_cases h168 : (s.currentHour + 1) % 168 = 0 <;>
      simp only [h24, h168, if_true, if_false] <;>
      exact ⟨(stepHourAux_clock _ o).1, (stepHourAux_clock _ o).2.1,
        (stepHourAux_clock _ o).2.2.1, (stepHourAux_clock _ o).2.2.2⟩

end SimState

theorem runSim_invariant (os : Nat → SimState.HourOracle) (k : Nat) :
    (runSim os k).currentHour = k ∧ (runSim os k).currentDay = k / 24 ∧
    (runSim os k).currentWeek = k / 168 ∧ (runSim os k).pool.length = 300 := by
  induction k with
  | zero =>
      refine ⟨rfl, rfl, rfl, ?_⟩
      show (MercenaryPool.init 300).length = 300
      unfold MercenaryPool.init
      rw [List.length_map, List.length_range]
  | succ k ih =>
      obtain ⟨ih1, ih2, ih3, ih4⟩ := ih
      have h := SimState.stepHour_clock (runSim os k) (os k)
      have hstep : runSim os (k + 1) =
          SimState.stepHour (runSim os k) (os k) := rfl
      refine ⟨?_, ?_, ?_, ?_⟩
      · rw [hstep, h.1, ih1]
      · rw [hstep, h.2.1, ih1, ih2]
        split <;> omega
      · rw [hstep, h.2.2.1, ih1, ih3]
        split <;> omega
      · rw [hstep, h.2.2.2, ih4]

/-- C9: from a freshly constructed simulation, whatever the randomized
faction turns do, 168 calls to `step_hour` yield `week = 1` and `day = 7`,
and after each of those 168 calls the mercenary pool size reported by
`get_state` lies within `[300, 5000]` (nothing in the hourly pipeline ever
changes the pool's size, which stays at its initial 300). -/
theorem week_day_pool_after_168 (os : Nat → SimState.HourOracle) :
    (runSim os 168).currentWeek = 1 ∧ (runSim os 168).currentDay = 7 ∧
    ∀ k, 1 ≤ k → k ≤ 168 →
      300 ≤ (runSim os k).getState.mercenaryPool ∧
      (runSim os k).getState.mercenaryPool ≤ 5000 := by
  obtain ⟨h1, h2, h3, h4⟩ := runSim_invariant os 168
  refine ⟨by rw [h3], by rw [h2], ?_⟩
  intro k hk1 hk2
  obtain ⟨_, _, _, hp⟩ := runSim_invariant os k
  have hview : (runSim os k).getState.mercenaryPool =
      (runSim os k).pool.length := rfl
  rw [hview, hp]
  omega

/-- A concrete oracle: factions act in dict order and no mission coin ever
comes up true. -/
def oracleConst : Nat → SimState.HourOracle :=
  fun _ => { order := FactionAI.factionColors, coins := fun _ _ => false }

/-- C9 witness: the scenario under the concrete all-false oracle, with the
pool bound checked after hour 24. -/
theorem week_day_pool_after_168_witness :
    (runSim oracleConst 168).currentWeek = 1 ∧
    300 ≤ (runSim oracleConst 24).getState.mercenaryPool ∧
    (runSim oracleConst 24).getState.mercenaryPool ≤ 5000 := by
  have h := week_day_pool_after_168 oracleConst
  exact ⟨h.1, (h.2.2 24 (by decide) (by decide)).1,
    (h.2.2 24 (by decide) (by decide)).2⟩

namespace HexGrid

/-- The key list of the cell dict. -/
def keys (g : HexGrid) : List Hex := g.cells.map (fun c => c.hex)

/-- The C1 invariant proper: every permanent cell has an owner. -/
def permOk (g : HexGrid) : Prop :=
  ∀ c ∈ g.cells, c.isPermanent = true → c.owner ≠ none

/-- Well-formedness of the dict model: keys are unique (true of every
Python dict by construction). -/
def gridWF (g : HexGrid) : Prop := g.keys.Nodup

/-- The combined grid invariant carried through every reachable state. -/
def GOk (g : HexGrid) : Prop := gridWF g ∧ permOk g

/-- A cell function is safe when it keeps the coordinate and cannot turn
a permanent cell into an unowned one. -/
def CellSafe (f : HexCell → HexCell) : Prop :=
  ∀ c : HexCell, (f c).hex = c.hex ∧
    ((c.isPermanent = true → c.owner ≠ none) →
      (f c).isPermanent = true → (f c).owner ≠ none)

theorem gridWF_of_sublist {l l' : List HexCell}
    (hs : l'.Sublist l) (h : (l.map (fun c => c.hex)).Nodup) :
    (l'.map (fun c => c.hex)).Nodup :=
  (hs.map _).nodup h

theorem GOk_updateCell {g : HexGrid} {f : HexCell → HexCell} (h : Hex)
    (hf : CellSafe f) (hg : GOk g) : GOk (g.updateCell h f) := by
  constructor
  · have hkeys : (g.updateCell h f).keys = g.keys := by
      unfold keys updateCell
      rw [List.map_map]
      apply List.map_congr_left
      intro c _
      by_cases hc : c.hex = h
      · simp [hc, (hf c).1]
      · simp [hc]
    unfold gridWF
    rw [hkeys]
    exact hg.1
  · intro c' hc'
    unfold updateCell at hc'
    obtain ⟨c, hc, hce⟩ := List.mem_map.mp hc'
    by_cases hch : c.hex = h
    · rw [if_pos hch] at hce
      subst hce
      exact (hf c).2 (hg.2 c hc)
    · rw [if_neg hch] at hce
      subst hce
      exact hg.2 c hc

theorem GOk_removeHex {g : HexGrid} (h : Hex) (hg : GOk g) :
    GOk (g.removeHex h) := by
  unfold removeHex
  split
  · constructor
    · exact gridWF_of_sublist (List.filter_sublist g.cells) hg.1
    · intro c hc
      exact hg.2 c (List.mem_of_mem_filter hc)
  · exact hg

theorem GOk_expandGrid {g : HexGrid} (hx : Hex) (hg : GOk g) :
    GOk (g.expandGrid hx) := by
  unfold expandGrid
  split
  · exact hg
  · rename_i hnone
    have hmem : ∀ c ∈ g.cells, c.hex ≠ hx := by
      intro c hc
      have hn : g.getCell hx = none := by
        cases hcc : g.getCell hx with
        | none => rfl
        | some c0 => rw [hcc] at hnone; simp at hnone
      rw [getCell, List.find?_eq_none] at hn
      intro hch
      exact absurd (decide_eq_true hch) (by simpa using hn c hc)
    constructor
    · unfold gridWF keys
      dsimp only
      rw [List.map_append, List.nodup_append]
      refine ⟨hg.1, List.nodup_singleton _, ?_⟩
      intro a ha hb
      obtain ⟨c, hc, hch⟩ := List.mem_map.mp ha
      have hb' : a = hx := by simpa using hb
      exact hmem c hc (by rw [hch, hb'])
    · intro c hc
      rw [List.mem_append] at hc
      rcases hc with hc | hc
      · exact hg.2 c hc
      · rw [List.mem_singleton] at hc
        subst hc
        intro hp
        cases hp

theorem cellSafe_reset : CellSafe HexCell.reset := by
  intro c
  unfold HexCell.reset
  split
  · rename_i hcond
    exact ⟨rfl, fun _ hp => absurd hp (by simp [hcond.2])⟩
  · exact ⟨rfl, fun hsafe => hsafe⟩

theorem cellSafe_produce : CellSafe HexCell.produceResources :=
  fun _ => ⟨rfl, fun hsafe => hsafe⟩

theorem cellSafe_zeroResources :
    CellSafe (fun c => { c with resources := 0 }) :=
  fun _ => ⟨rfl, fun hsafe => hsafe⟩

theorem cellSafe_setProtection (hour duration : Nat) :
    CellSafe (fun c => c.setProtection hour duration) :=
  fun _ => ⟨rfl, fun hsafe => hsafe⟩

theorem cellSafe_claimOwner (color : Color) (hour : Nat) :
    CellSafe (fun tc =>
      ({ tc with owner := some color }).setProtection hour 3) :=
  fun c => ⟨rfl, fun _ _ => by simp [HexCell.setProtection]⟩

theorem GOk_foldl {α : Type} (f : HexGrid → α → HexGrid)
    (hf : ∀ g a, GOk g → GOk (f g a)) :
    ∀ (l : List α) (g : HexGrid), GOk g → GOk (l.foldl f g) := by
  intro l
  induction l with
  | nil => intro g hg; exact hg
  | cons a l ih => intro g hg; exact ih (f g a) (hf g a hg)

end HexGrid

namespace SimState

open HexGrid

theorem GOk_removeOrphanedHexes (g : HexGrid) (hx : Hex) (hg : GOk g) :
    GOk (removeOrphanedHexes g hx) := by
  unfold removeOrphanedHexes
  refine GOk_foldl _ ?_ _ g hg
  intro g' nh hg'
  split
  · exact hg'
  · split
    · exact hg'
    · split
      · exact hg'
      · exact GOk_removeHex nh hg'

theorem GOk_shrinkBody (g : HexGrid) (body : List Hex) (hg : GOk g) :
    GOk (shrinkBody g body) := by
  unfold shrinkBody
  split
  · exact hg
  · exact GOk_removeOrphanedHexes _ _
      (GOk_updateCell _ cellSafe_reset hg)

theorem GOk_shrinkFaction (g : HexGrid) (color : Color) (hg : GOk g) :
    GOk (shrinkFaction g color) := by
  unfold shrinkFaction
  dsimp only
  split
  · exact hg
  · split
    · exact hg
    · exact GOk_foldl _ (fun g' b => GOk_shrinkBody g' b) _ g hg

theorem GOk_shrinkDisconnected (g : HexGrid) (hg : GOk g) :
    GOk (shrinkDisconnectedTerritories g) :=
  GOk_foldl _ (fun g' c => GOk_shrinkFaction g' c) _ g hg

theorem GOk_produceFaction (g : HexGrid) (color : Color) (hg : GOk g) :
    GOk (produceFaction g color) := by
  unfold produceFaction
  dsimp only
  split
  · exact hg
  · refine GOk_foldl _ ?_ _ g hg
    intro g' cell hg'
    split
    · exact GOk_updateCell _ cellSafe_produce hg'
    · exact hg'

theorem GOk_produceAll (g : HexGrid) (hg : GOk g) :
    GOk (produceResourcesAll g) :=
  GOk_foldl _ (fun g' c => GOk_produceFaction g' c) _ g hg

theorem GOk_foldlGR {α : Type} (f : HexGrid × Rat → α → HexGrid × Rat)
    (hf : ∀ acc a, GOk acc.1 → GOk (f acc a).1) :
    ∀ (l : List α) (acc : HexGrid × Rat), GOk acc.1 → GOk (l.foldl f acc).1 := by
  intro l
  induction l with
  | nil => intro acc hacc; exact hacc
  | cons a l ih => intro acc hacc; exact ih (f acc a) (hf acc a hacc)

theorem GOk_processDailyFaction (s : SimState) (color : Color)
    (hg : GOk s.grid) : GOk (processDailyFaction s color).grid := by
  unfold processDailyFaction
  dsimp only
  split
  · exact hg
  · refine GOk_foldlGR _ ?_ _ (s.grid, 0) hg
    intro acc cell hacc
    split
    · split
      · exact GOk_updateCell _ cellSafe_zeroResources hacc
      · exact hacc
    · exact hacc

theorem GOk_processDaily (s : SimState) (hg : GOk s.grid) :
    GOk (processDaily s).grid := by
  unfold processDaily FactionAI.factionColors
  exact GOk_processDailyFaction _ Color.blue
    (GOk_processDailyFaction _ Color.green
      (GOk_processDailyFaction _ Color.orange hg))

theorem GOk_processHourly (s : SimState) (hg : GOk s.grid) :
    GOk (processHourly s).grid :=
  GOk_produceAll _ (GOk_shrinkDisconnected _ hg)

theorem GOk_protectNeighbors (g : HexGrid) (target : Hex) (color : Color)
    (hour : Nat) (hg : GOk g) :
    GOk (FactionAI.protectNeighbors g target color hour) := by
  unfold FactionAI.protectNeighbors
  refine GOk_foldl _ ?_ _ g hg
  intro g' n hg'
  exact GOk_updateCell _ (cellSafe_setProtection hour 3) hg'

theorem GOk_expandGridIfNeeded (g : HexGrid) (hx : Hex) (hg : GOk g) :
    GOk (FactionAI.expandGridIfNeeded g hx) := by
  unfold FactionAI.expandGridIfNeeded
  refine GOk_foldl _ ?_ _ g hg
  intro g' nh hg'
  split
  · exact hg'
  · exact GOk_expandGrid nh hg'

set_option maxHeartbeats 2000000 in
theorem GOk_executeMission (g : HexGrid) (pool : MercenaryPool)
    (color : Color) (m : Mission) (hour : Nat) (hg : GOk g) :
    GOk (FactionAI.executeMission g pool color m hour).2.1 := by
  unfold FactionAI.executeMission
  dsimp only
  split
  · exact hg
  · split
    · split
      · split
        · exact GOk_expandGridIfNeeded _ _
            (GOk_protectNeighbors _ _ _ _
              (GOk_updateCell _ (cellSafe_claimOwner color hour) hg))
        · exact hg
      · exact hg
    · split
      · split
        · split
          · exact GOk_protectNeighbors _ _ _ _
              (GOk_updateCell _ (cellSafe_claimOwner color hour) hg)
          · exact hg
        · exact hg
      · exact hg

theorem GOk_processFactionMissions (s : SimState) (color : Color)
    (coins : Nat → Bool) (hg : GOk s.grid) :
    GOk (processFactionMissions s color coins).grid := by
  unfold processFactionMissions
  dsimp only
  have hfold : ∀ (ms : List Mission) (acc : SimState × Nat), GOk acc.1.grid →
      GOk ((ms.foldl
        (fun (acc : SimState × Nat) mission =>
          if coins acc.2 then
            let r := FactionAI.executeMission acc.1.grid acc.1.pool color
              mission acc.1.currentHour
            ({ acc.1 with grid := r.2.1, pool := r.2.2 }, acc.2 + 1)
          else (acc.1, acc.2 + 1)) acc).1).grid := by
    intro ms
    induction ms with
    | nil => intro acc hacc; exact hacc
    | cons mission ms ih =>
        intro acc hacc
        rw [List.foldl_cons]
        refine ih _ ?_
        split
        · exact GOk_executeMission acc.1.grid acc.1.pool color mission
            acc.1.currentHour hacc
        · exact hacc
  exact hfold _ (s, 0) hg

theorem GOk_processFactionActions (s : SimState) (o : HourOracle)
    (hg : GOk s.grid) : GOk (processFactionActions s o).grid := by
  unfold processFactionActions
  have hfold : ∀ (l : List Color) (t : SimState), GOk t.grid →
      GOk ((l.foldl (fun t color =>
        processFactionMissions t color (o.coins color)) t)).grid := by
    intro l
    induction l with
    | nil => intro t ht; exact ht
    | cons c l ih =>
        intro t ht
        rw [List.foldl_cons]
        exact ih _ (GOk_processFactionMissions t c (o.coins c) ht)
  exact hfold o.order s hg

theorem GOk_stepHourAux (t : SimState) (o : HourOracle) (hg : GOk t.grid) :
    GOk (processFactionActions
      (if (processHourly t).currentHour % 24 = 0 then
        processDaily (processHourly t)
       else processHourly t) o).grid := by
  split
  · exact GOk_processFactionActions _ o
      (GOk_processDaily _ (GOk_processHourly t hg))
  · exact GOk_processFactionActions _ o (GOk_processHourly t hg)

theorem GOk_stepHour (s : SimState) (o : HourOracle) (hg : GOk s.grid) :
    GOk (stepHour s o).grid := by
  unfold stepHour processWeekly
  dsimp only
  by_cases h24 : (s.currentHour + 1) % 24 = 0 <;>
    by_cases h168 : (s.currentHour + 1) % 168 = 0 <;>
      simp only [h24, h168, if_true, if_false] <;>
      exact GOk_stepHourAux _ o hg

theorem GOk_loadSave (s : SimState) (hg : HexGrid.GOk s.grid) :
    HexGrid.GOk (s.loadState s.saveState).grid := by
  constructor
  · unfold HexGrid.gridWF HexGrid.keys
    rw [roundTrip_cells, List.map_map]
    exact hg.1
  · intro c' hc'
    rw [roundTrip_cells] at hc'
    obtain ⟨c, hc, rfl⟩ := List.mem_map.mp hc'
    exact hg.2 c hc

end SimState

set_option maxRecDepth 40000 in
theorem GOk_init : HexGrid.GOk HexGrid.init :=
  ⟨show HexGrid.init.keys.Nodup by decide,
   show ∀ c ∈ HexGrid.init.cells, c.isPermanent = true → c.owner ≠ none
     by decide⟩

/-- The state transitions available at the external interface: one
`step_hour` under some oracle, a `reset`, or a save/load round trip. -/
inductive SimStep : SimState → SimState → Prop where
  | hour (s : SimState) (o : SimState.HourOracle) : SimStep s (s.stepHour o)
  | reset (s : SimState) : SimStep s s.resetSim
  | saveload (s : SimState) : SimStep s (s.loadState s.saveState)

/-- A simulation state reachable from a freshly constructed `Simulation`. -/
def Reachable (s : SimState) : Prop :=
  Relation.ReflTransGen SimStep SimState.init s

set_option maxRecDepth 40000 in
theorem reachable_GOk {s : SimState} (h : Reachable s) :
    HexGrid.GOk s.grid := by
  induction h with
  | refl => exact GOk_init
  | tail hto hstep ih =>
      cases hstep with
      | hour o => exact SimState.GOk_stepHour _ o ih
      | reset => exact GOk_init
      | saveload => exact SimState.GOk_loadSave _ ih

theorem executeMission_permanent_fails (g : HexGrid) (pool : MercenaryPool)
    (color : Color) (m : Mission) (hour : Nat) (c : HexCell)
    (hc : g.getCell m.target = some c) (hperm : c.isPermanent = true) :
    (FactionAI.executeMission g pool color m hour).1 = false := by
  unfold FactionAI.executeMission
  dsimp only
  split
  · rfl
  · split
    · rw [hc]
      dsimp only
      split_ifs with h1
      · exact absurd h1.2.1 (by simp [hperm])
      · rfl
    · rw [hc]
      dsimp only
      split_ifs with h1 h2
      · exact absurd h1.2.2.1 (by simp [hperm])
      · exact absurd h1.2.2.1 (by simp [hperm])
      · rfl

theorem reset_noop_of_permanent (c : HexCell) (hperm : c.isPermanent = true) :
    c.reset = c := by
  unfold HexCell.reset
  rw [if_neg]
  rintro ⟨-, h2⟩
  rw [hperm] at h2
  cases h2

theorem canRemoveHex_owner {g : HexGrid} {hx : Hex}
    (hcan : g.canRemoveHex hx = true) :
    ∃ c0, g.getCell hx = some c0 ∧ c0.owner = none := by
  unfold HexGrid.canRemoveHex at hcan
  split at hcan
  · cases hcan
  · split at hcan
    · cases hcan
    · rename_i c0 heq
      split at hcan
      · cases hcan
      · rename_i howner
        exact ⟨c0, heq, not_not.mp howner⟩

theorem removeHex_keeps_permanent {g : HexGrid} (hg : HexGrid.GOk g)
    {c : HexCell} (hc : c ∈ g.cells) (hperm : c.isPermanent = true)
    (hx : Hex) : c ∈ (g.removeHex hx).cells := by
  unfold HexGrid.removeHex
  split
  · rename_i hcan
    obtain ⟨c0, hc0, howner⟩ := canRemoveHex_owner hcan
    have hc0mem : c0 ∈ g.cells := List.mem_of_find?_eq_some hc0
    have hc0hex : c0.hex = hx := by
      have := List.find?_some hc0
      simpa using this
    have hcowner := hg.2 c hc hperm
    rw [List.mem_filter]
    refine ⟨hc, ?_⟩
    rw [decide_eq_true_iff]
    intro hch
    have hcc0 : c = c0 :=
      List.inj_on_of_nodup_map hg.1 hc hc0mem (by rw [hch, hc0hex])
    rw [hcc0] at hcowner
    exact hcowner howner
  · exact hc

/-- C1: in every reachable simulation state, every permanent cell has an
owner; `execute_mission` never succeeds against a permanent target (for
any mission kind); `HexCell.reset` leaves permanent cells untouched; and
`remove_hex` never removes a permanent cell. -/
theorem permanent_cells_inviolable (s : SimState) (hs : Reachable s) :
    (∀ c ∈ s.grid.cells, c.isPermanent = true → c.owner ≠ none) ∧
    (∀ (pool : MercenaryPool) (color : Color) (m : Mission) (hour : Nat)
        (c : HexCell), s.grid.getCell m.target = some c →
      c.isPermanent = true →
      (FactionAI.executeMission s.grid pool color m hour).1 = false) ∧
    (∀ c ∈ s.grid.cells, c.isPermanent = true → c.reset = c) ∧
    (∀ (hx : Hex) (c : HexCell), c ∈ s.grid.cells → c.isPermanent = true →
      c ∈ (s.grid.removeHex hx).cells) := by
  have hg := reachable_GOk hs
  refine ⟨hg.2, ?_, ?_, ?_⟩
  · intro pool color m hour c hc hperm
    exact executeMission_permanent_fails s.grid pool color m hour c hc hperm
  · intro c _ hperm
    exact reset_noop_of_permanent c hperm
  · intro hx c hc hperm
    exact removeHex_keeps_permanent hg hc hperm hx

/-- The centre cell of the fresh grid (grey home, permanent). -/
def cellCenter : HexCell :=
  { hex := ⟨0, 0⟩, owner := some Color.grey, isHome := true,
    isPermanent := true, nativeSector := some Color.orange, resources := 0,
    protectionUntil := 0 }

set_option maxRecDepth 40000 in
/-- C1 witness: the theorem applied to the freshly constructed simulation
at the permanent centre cell. -/
theorem permanent_cells_inviolable_witness :
    (FactionAI.executeMission SimState.init.grid (MercenaryPool.init 300)
      Color.orange
      { mtype := MissionType.disrupt, target := ⟨0, 0⟩,
        faction := Color.orange, reward := 5000 } 0).1 = false ∧
    cellCenter.reset = cellCenter ∧
    cellCenter ∈ (SimState.init.grid.removeHex ⟨0, 0⟩).cells := by
  have h := permanent_cells_inviolable SimState.init
    Relation.ReflTransGen.refl
  exact ⟨h.2.1 (MercenaryPool.init 300) Color.orange _ 0 cellCenter
      (by decide) rfl,
    h.2.2.1 cellCenter (by decide) rfl,
    h.2.2.2 ⟨0, 0⟩ cellCenter (by decide) rfl⟩
